import Mathlib

/-!
Shallow embedding of the deterministic tick-based simulation core of
`src/app.py` (world state, action queue, tick processor, economy, autonomy
policy, snapshot normalization), together with theorems settling the frozen
claims about it.

Modelling conventions:
* Python dict values that can be arbitrary JSON data (action payloads, the
  action queue after a snapshot load, the reactive-denial bookkeeping fields)
  are embedded as `JVal`, a JSON-like value type.  JSON floats are not
  modelled.
* Python `int(...)` coercion (`_to_int`) is modelled for `None`, `bool`,
  `int` and ASCII decimal strings (optional sign, underscores between
  digits); `isinstance(x, int)` is modelled including the Python quirk that
  `bool` is a subclass of `int`.
* Log events are modelled by their tick and event tag; the event `data`
  dict and the wall-clock `time` field are informational only and are not
  modelled.
* The token-gated-entry bookkeeping (`entry.used_tx_hashes`), file I/O and
  the HTTP layer are outside the simulation core and are not modelled; the
  snapshot document is modelled structurally (`SnapshotDoc`).
* An operation that would raise an unhandled Python exception mid-way is
  modelled by returning the state as mutated up to the raise point together
  with an `ok := false` flag (`none` at the single-action level).
-/

namespace AxiomWorld

/-- JSON-like values as stored in the Python world-state dict. -/
inductive JVal where
  | jnull
  | jbool (b : Bool)
  | jint (n : Int)
  | jstr (s : String)
  | jarr (xs : List JVal)
  | jobj (fields : List (String × JVal))

/-- Python truthiness (`bool(x)`) for the modelled values. -/
def pyTruthy : JVal → Bool
  | .jnull => false
  | .jbool b => b
  | .jint n => n != 0
  | .jstr s => s != ""
  | .jarr xs => !xs.isEmpty
  | .jobj fs => !fs.isEmpty

/-- Digit-group check for Python `int(str)`: digits with single underscores
strictly between digits. -/
def pyDigitTail : List Char → Bool
  | [] => true
  | '_' :: rest =>
    match rest with
    | [] => false
    | c :: _ => c.isDigit && pyDigitTail rest
  | c :: rest => c.isDigit && pyDigitTail rest

/-- Whole digit group: non-empty, starts with a digit, underscores only
between digits. -/
def pyDigitsOk : List Char → Bool
  | [] => false
  | c :: rest => c.isDigit && pyDigitTail rest

/-- Value of a list of decimal digits. -/
def digitsVal (cs : List Char) : Int :=
  cs.foldl (fun acc c => acc * 10 + ((c.toNat : Int) - ('0'.toNat : Int))) 0

/-- Python `int(s)` on an ASCII decimal string: strip whitespace, optional
sign, digits with underscores between them; `none` when `int` would raise. -/
def pyIntOfStr (s : String) : Option Int :=
  let cs := s.trim.toList
  let signed : Int × List Char :=
    match cs with
    | '+' :: rest => (1, rest)
    | '-' :: rest => (-1, rest)
    | _ => (1, cs)
  if pyDigitsOk signed.2 then
    some (signed.1 * digitsVal (signed.2.filter (fun c => c ≠ '_')))
  else none

/-- `_to_int(value, default)` from `src/app.py`: `int(value)` with the
default on `TypeError`/`ValueError`. -/
def pyToInt (v : JVal) (d : Int) : Int :=
  match v with
  | .jint n => n
  | .jbool b => if b then 1 else 0
  | .jstr s => (pyIntOfStr s).getD d
  | _ => d

/-- `_to_non_negative_int` on a value that is already an `int` in Python
(balances, ticks, cooldowns held in the typed state). -/
def clampNonNeg (v : Int) (d : Int) : Int :=
  if 0 ≤ v then v else d

/-- `_to_non_negative_int(value, default)` on a raw value. -/
def jToNonNeg (v : JVal) (d : Int) : Int :=
  let parsed := pyToInt v d
  if 0 ≤ parsed then parsed else d

/-- `isinstance(x, int)` plus `int(x)`: Python `bool` is a subclass of
`int`, so booleans count and convert to 0/1. -/
def jAsInt? : JVal → Option Int
  | .jint n => some n
  | .jbool b => some (if b then 1 else 0)
  | _ => none

/-- Python `x == n` for an `int` right-hand side (strings, lists, `None`
never equal an int; booleans compare as 0/1). -/
def jEqInt (v : JVal) (n : Int) : Bool :=
  match jAsInt? v with
  | some m => m == n
  | none => false

/-- `dict.get` on an association list. -/
def pget (fs : List (String × JVal)) (k : String) : Option JVal :=
  (fs.find? (fun p => p.1 == k)).map (fun p => p.2)

/-- `value.get(key)` on a raw value: `none` models the `AttributeError`
raised when `value` is not a dict; `some r` gives `dict.get`'s result. -/
def dictGet? (v : JVal) (k : String) : Option (Option JVal) :=
  match v with
  | .jobj fs => some (pget fs k)
  | _ => none

/-- A retained audit-log entry: the simulation tick at emission and the
event tag. -/
structure LogEvent where
  tick : Int
  event : String

/-- `world_state["economy"]`. -/
structure Economy where
  workshop_capacity_per_tick : Int
  workshop_capacity_left : Int

/-- An agent record, with the shape guaranteed by `join`,
`/scenario/*` and `_normalize_loaded_state`.  `name` is never read by the
core and is not validated at load, so it stays raw; the reactive-denial
fields are written raw by the tick processor and pass through snapshot
normalization untouched. -/
structure Agent where
  id : Int
  name : Option JVal := none
  balance_mon : Int
  pos : String
  status : String
  inventory : List JVal := []
  auto : Bool
  cooldown_until_tick : Int
  goal : String
  last_denied_reason : Option JVal := none
  last_denied_tick : Option JVal := none

/-- The world state.  The action queue holds raw values because a loaded
snapshot passes queue entries through unvalidated. -/
structure WorldState where
  tick : Int
  locations : List String
  agents : List Agent
  action_queue : List JVal
  logs : List LogEvent
  economy : Economy

def MAX_LOGS : Nat := 5000

def MOVE_COST_MON : Int := 1

/-- `make_initial_world_state` (the `entry` key is out of the modelled
core). -/
def make_initial_world_state : WorldState :=
  { tick := 0
    locations := ["spawn", "market", "workshop"]
    agents := []
    action_queue := []
    logs := []
    economy := { workshop_capacity_per_tick := 1, workshop_capacity_left := 1 } }

/-- Append one entry to the bounded log, dropping the oldest entries
beyond `MAX_LOGS`. -/
def pushLog (ls : List LogEvent) (e : LogEvent) : List LogEvent :=
  let ls2 := ls ++ [e]
  if MAX_LOGS < ls2.length then ls2.drop (ls2.length - MAX_LOGS) else ls2

/-- `log(event, ...)`: append a log entry tagged with the current tick. -/
def logEvent (ws : WorldState) (e : String) : WorldState :=
  { ws with logs := pushLog ws.logs { tick := ws.tick, event := e } }

/-- `find_agent`: first agent whose `id` equals the given integer. -/
def find_agent (agents : List Agent) (aid : Int) : Option Agent :=
  agents.find? (fun a => a.id == aid)

/-- In-place mutation of the dict returned by `find_agent`: replace the
first agent with the given id. -/
def updateFirst : List Agent → Int → (Agent → Agent) → List Agent
  | [], _, _ => []
  | a :: rest, aid, f =>
    if a.id = aid then f a :: rest else a :: updateFirst rest aid f

/-- The `move` branch of the tick processor (`src/app.py` lines 1013-1037).
`none` models the `AttributeError` from `payload.get` on a non-dict
payload. -/
def applyMove (ws : WorldState) (agent : Agent) (aid : Int) (payload : JVal) :
    Option (WorldState × Bool) :=
  match dictGet? payload "to" with
  | none => none
  | some toField =>
    match toField with
    | some (.jstr dest) =>
      if dest ∈ ws.locations then
        let bal := clampNonNeg agent.balance_mon 0
        if bal < MOVE_COST_MON then
          some (logEvent ws "move_denied_insufficient_funds", false)
        else
          let ws1 := { ws with
            agents := updateFirst ws.agents aid
              (fun a => { a with balance_mon := bal - MOVE_COST_MON }) }
          let ws2 := logEvent ws1 "move_cost"
          let ws3 := { ws2 with
            agents := updateFirst ws2.agents aid (fun a => { a with pos := dest }) }
          some (logEvent ws3 "move", true)
      else some (logEvent ws "move_denied_invalid_payload", false)
    | _ => some (logEvent ws "move_denied_invalid_payload", false)

/-- The `earn` branch of the tick processor (`src/app.py` lines 1039-1069). -/
def applyEarn (ws : WorldState) (agent : Agent) (aid : Int) (payload : JVal) :
    Option (WorldState × Bool) :=
  if agent.pos ≠ "workshop" then
    some (logEvent ws "earn_denied_wrong_location", false)
  else
    let left := clampNonNeg ws.economy.workshop_capacity_left 0
    if left ≤ 0 then
      let ws1 := logEvent ws "earn_denied_capacity"
      let penaltyUntil := ws.tick + 2
      let ws2 := { ws1 with
        agents := updateFirst ws1.agents aid (fun a =>
          { a with
            cooldown_until_tick := max (clampNonNeg a.cooldown_until_tick 0) penaltyUntil }) }
      let ws3 := logEvent ws2 "cooldown_penalty"
      let ws4 := { ws3 with
        agents := updateFirst ws3.agents aid (fun a =>
          { a with last_denied_reason := some (.jstr "capacity"),
                   last_denied_tick := some (.jint ws.tick) }) }
      some (ws4, false)
    else
      match dictGet? payload "amount" with
      | none => none
      | some amtField =>
        let amount := pyToInt (amtField.getD (.jint 1)) 0
        if amount ≤ 0 then
          some (logEvent ws "earn_denied_invalid_amount", false)
        else
          let ws1 := { ws with
            agents := updateFirst ws.agents aid (fun a =>
              { a with balance_mon := clampNonNeg a.balance_mon 0 + amount })
            economy := { ws.economy with workshop_capacity_left := left - 1 } }
          some (logEvent ws1 "earn", true)

/-- The `say` branch of the tick processor (`src/app.py` lines 1071-1073):
always applied, but reading `payload.get("text", ...)` crashes on a
non-dict payload. -/
def applySay (ws : WorldState) (payload : JVal) : Option (WorldState × Bool) :=
  match dictGet? payload "text" with
  | none => none
  | some _ => some (logEvent ws "say", true)

/-- The `transfer` branch of the tick processor (`src/app.py` lines
1075-1121). -/
def applyTransfer (ws : WorldState) (agent : Agent) (aid : Int) (payload : JVal) :
    Option (WorldState × Bool) :=
  match dictGet? payload "to_agent_id", dictGet? payload "amount" with
  | none, _ => none
  | _, none => none
  | some tgtField, some amtField =>
    match jAsInt? (tgtField.getD .jnull) with
    | none => some (logEvent ws "transfer_denied_invalid_target", false)
    | some t =>
      if t ≤ 0 then some (logEvent ws "transfer_denied_invalid_target", false)
      else
        match jAsInt? (amtField.getD .jnull) with
        | none => some (logEvent ws "transfer_denied_invalid_amount", false)
        | some amt =>
          if amt ≤ 0 then some (logEvent ws "transfer_denied_invalid_amount", false)
          else if t = aid then some (logEvent ws "transfer_denied_same_agent", false)
          else
            match find_agent ws.agents t with
            | none => some (logEvent ws "transfer_denied_unknown_target", false)
            | some _ =>
              let senderBal := clampNonNeg agent.balance_mon 0
              if senderBal < amt then
                some (logEvent ws "transfer_denied_insufficient_funds", false)
              else
                let ws1 := { ws with
                  agents := updateFirst ws.agents aid
                    (fun a => { a with balance_mon := senderBal - amt }) }
                let ws2 := { ws1 with
                  agents := updateFirst ws1.agents t (fun a =>
                    { a with balance_mon := clampNonNeg a.balance_mon 0 + amt }) }
                some (logEvent ws2 "transfer", true)

/-- Process one queued action (`src/app.py` lines 992-1121).  Returns
`none` when the Python code would raise an unhandled exception (the state
is then unchanged by this action); otherwise the new state and whether the
action counted as applied. -/
def applyAction (ws : WorldState) (action : JVal) : Option (WorldState × Bool) :=
  match action with
  | .jobj fields =>
    match pget fields "agent_id" with
    | none => some (logEvent ws "action_skipped_invalid", false)
    | some .jnull => some (logEvent ws "action_skipped_invalid", false)
    | some aidVal =>
      match jAsInt? aidVal with
      | none => some (logEvent ws "action_skipped_unknown_agent", false)
      | some aid =>
        match find_agent ws.agents aid with
        | none => some (logEvent ws "action_skipped_unknown_agent", false)
        | some agent =>
          let payloadRaw := (pget fields "payload").getD .jnull
          let payload := if pyTruthy payloadRaw then payloadRaw else .jobj []
          match pget fields "type" with
          | none => some (logEvent ws "action_skipped_invalid", false)
          | some .jnull => some (logEvent ws "action_skipped_invalid", false)
          | some (.jstr "move") => applyMove ws agent aid payload
          | some (.jstr "earn") => applyEarn ws agent aid payload
          | some (.jstr "say") => applySay ws payload
          | some (.jstr "transfer") => applyTransfer ws agent aid payload
          | some _ => some (ws, false)
  | _ => some (logEvent ws "action_skipped_invalid", false)

/-- Drain a detached queue in FIFO order, counting applied actions; the
`Bool` is false when processing aborted with an unhandled exception. -/
def runQueue : WorldState → List JVal → Int → WorldState × Int × Bool
  | ws, [], n => (ws, n, true)
  | ws, a :: rest, n =>
    match applyAction ws a with
    | none => (ws, n, false)
    | some (ws', applied) => runQueue ws' rest (if applied then n + 1 else n)

/-- One tick step (`src/app.py` lines 971-1124): increment the tick, reset
workshop capacity, detach and drain the queue, emit the `tick` event. -/
def tick_step (ws : WorldState) : WorldState × Int × Bool :=
  let ws0 := { ws with tick := ws.tick + 1 }
  let capPerTick0 := clampNonNeg ws0.economy.workshop_capacity_per_tick 1
  let capPerTick := if capPerTick0 ≤ 0 then 1 else capPerTick0
  let ws1 := { ws0 with
    economy := { ws0.economy with workshop_capacity_left := capPerTick } }
  let queue := ws1.action_queue
  let ws2 := { ws1 with action_queue := [] }
  let res := runQueue ws2 queue 0
  if res.2.2 then (logEvent res.1 "tick", res.2.1, true) else res

/-- The result of the `/tick` endpoint; `ok := false` when an unhandled
exception escaped (HTTP 500), leaving the state as mutated so far. -/
structure TickResult where
  ws : WorldState
  applied : Int
  ok : Bool

/-- Repeat `tick_step`, accumulating the applied-action total. -/
def tick_loop : Nat → WorldState → Int → WorldState × Int × Bool
  | 0, ws, total => (ws, total, true)
  | n + 1, ws, total =>
    let res := tick_step ws
    if res.2.2 then tick_loop n res.1 (total + res.2.1) else (res.1, total, false)

/-- `tick(steps)` (`src/app.py` lines 965-1126). -/
def tick (steps : Nat) (ws : WorldState) : TickResult :=
  let ws0 := { ws with tick := clampNonNeg ws.tick 0 }
  let res := tick_loop steps ws0 0
  { ws := res.1, applied := res.2.1, ok := res.2.2 }

/-- The four action types admitted by the `/act` endpoint's pydantic
`Literal`. -/
inductive ActionType where
  | move
  | earn
  | say
  | transfer

def ActionType.toStr : ActionType → String
  | .move => "move"
  | .earn => "earn"
  | .say => "say"
  | .transfer => "transfer"

/-- Queue-time failures of `act`: HTTP 404 `Agent not found` versus the
HTTP 400 payload-validation errors. -/
inductive ActError where
  | agentNotFound
  | invalidPayload (detail : String)

/-- Build the queued-action dict appended by `act` / `_queue_action`. -/
def mkAction (tickAt : Int) (aid : Int) (ty : String) (payload : List (String × JVal)) : JVal :=
  .jobj [("queued_at_tick", .jint tickAt), ("agent_id", .jint aid),
         ("type", .jstr ty), ("payload", .jobj payload)]

/-- Append a validated action and emit `queued_action` (shared tail of
`act`, and the body of `_queue_action`). -/
def _queue_action (ws : WorldState) (aid : Int) (ty : String)
    (payload : List (String × JVal)) : WorldState × JVal :=
  let action := mkAction ws.tick aid ty payload
  (logEvent { ws with action_queue := ws.action_queue ++ [action] } "queued_action", action)

/-- `act` (`src/app.py` lines 808-856): resolve the agent, validate the
payload structurally per action type, then enqueue. -/
def act (ws : WorldState) (agent_id : Int) (ty : ActionType)
    (payload : List (String × JVal)) : Except ActError (WorldState × JVal) :=
  match find_agent ws.agents agent_id with
  | none => .error .agentNotFound
  | some _ =>
    let queueIt : Unit → Except ActError (WorldState × JVal) := fun _ =>
      .ok (_queue_action ws agent_id ty.toStr payload)
    match ty with
    | .move =>
      match pget payload "to" with
      | some (.jstr dest) =>
        if dest ∈ ws.locations then queueIt ()
        else .error (.invalidPayload "move requires payload.to (string, one of: spawn, market, workshop)")
      | _ => .error (.invalidPayload "move requires payload.to (string, one of: spawn, market, workshop)")
    | .earn =>
      match jAsInt? ((pget payload "amount").getD (.jint 1)) with
      | some amount =>
        if amount ≤ 0 then .error (.invalidPayload "earn.amount must be positive int")
        else queueIt ()
      | none => .error (.invalidPayload "earn.amount must be positive int")
    | .say =>
      match (pget payload "text").getD (.jstr "") with
      | .jstr text =>
        if text.trim = "" then .error (.invalidPayload "say.text must be non-empty string")
        else queueIt ()
      | _ => .error (.invalidPayload "say.text must be non-empty string")
    | .transfer =>
      match jAsInt? ((pget payload "to_agent_id").getD .jnull) with
      | none => .error (.invalidPayload "transfer.to_agent_id must be positive int")
      | some toAgentId =>
        if toAgentId ≤ 0 then .error (.invalidPayload "transfer.to_agent_id must be positive int")
        else
          match jAsInt? ((pget payload "amount").getD .jnull) with
          | none => .error (.invalidPayload "transfer.amount must be positive int")
          | some amount =>
            if amount ≤ 0 then .error (.invalidPayload "transfer.amount must be positive int")
            else if toAgentId = agent_id then
              .error (.invalidPayload "transfer.to_agent_id must be different from agent_id")
            else
              match find_agent ws.agents toAgentId with
              | none => .error .agentNotFound
              | some _ => queueIt ()

/-- `_next_agent_id`: one more than the maximum existing id (0 when there
are no agents). -/
def _next_agent_id (agents : List Agent) : Int :=
  (agents.foldl (fun m a => max m a.id) 0) + 1

/-- The agent record created by `join` (`src/app.py` lines 767-795); the
token-gated-entry fields (`entry_tx_hash`, `entry_payer`, `wallet_address`)
are external-entry bookkeeping and are not modelled. -/
def join (ws : WorldState) (name : String) (deposit_mon : Int) : WorldState × Agent :=
  let agent : Agent :=
    { id := _next_agent_id ws.agents
      name := some (.jstr name)
      balance_mon := deposit_mon
      pos := "spawn"
      status := "active"
      inventory := []
      auto := false
      cooldown_until_tick := 0
      goal := "earn" }
  (logEvent { ws with agents := ws.agents ++ [agent] } "join", agent)

/-- `/reset`: `reset_in_place` then the `reset` log event (the preserved
`used_tx_hashes` set is external-entry bookkeeping, not modelled). -/
def resetWorld : WorldState :=
  logEvent make_initial_world_state "reset"

/-- `_pick_next_location` (`src/app.py` lines 1420-1434). -/
def _pick_next_location (ws : WorldState) (current : String) : String :=
  let locs := ws.locations
  if locs.isEmpty then current
  else if current ∉ locs then locs.headD current
  else if locs.length = 1 then current
  else locs.getD ((locs.indexOf current + 1) % locs.length) current

/-- The cooldown-gate-and-goal-dispatch tail of `_auto_policy_for_agent`
(`src/app.py` lines 1563-1656), reached when the reactive branch does not
fire.  Returns the state (queue/log updates), the mutated agent, and the
chosen queued action. -/
def policyCore (ws : WorldState) (agent : Agent) (tick_now : Int) (pos goal : String)
    (bal : Int) : WorldState × Agent × Option JVal :=
  let cooldown_until := clampNonNeg agent.cooldown_until_tick 0
  if tick_now < cooldown_until then
    (logEvent ws "auto_decision", agent, none)
  else if goal = "idle" then
    (logEvent ws "auto_decision", { agent with cooldown_until_tick := tick_now + 1 }, none)
  else if goal = "wander" then
    if bal < MOVE_COST_MON then
      (logEvent ws "auto_decision", { agent with cooldown_until_tick := tick_now + 1 }, none)
    else
      let dest := _pick_next_location ws pos
      let queued : WorldState × Option JVal :=
        if dest ≠ pos then
          let r := _queue_action ws agent.id "move" [("to", .jstr dest)]
          (r.1, some r.2)
        else (ws, none)
      (logEvent queued.1 "auto_decision",
       { agent with cooldown_until_tick := tick_now + 1 }, queued.2)
  else
    if pos ≠ "workshop" then
      if bal < MOVE_COST_MON then
        (logEvent ws "auto_decision", { agent with cooldown_until_tick := tick_now + 1 }, none)
      else
        let r := _queue_action ws agent.id "move" [("to", .jstr "workshop")]
        (logEvent r.1 "auto_decision",
         { agent with cooldown_until_tick := tick_now + 1 }, some r.2)
    else
      let r := _queue_action ws agent.id "earn" [("amount", .jint 1)]
      (logEvent r.1 "auto_decision",
       { agent with cooldown_until_tick := tick_now + 1 }, some r.2)

/-- `last_reason == "capacity"` on the raw reactive field. -/
def isCapacityReason : Option JVal → Bool
  | some (.jstr s) => s == "capacity"
  | _ => false

/-- `last_tick is not None` on the raw reactive field. -/
def isNotNone : Option JVal → Bool
  | none => false
  | some .jnull => false
  | some _ => true

/-- `_auto_policy_for_agent` (`src/app.py` lines 1504-1656).  The policy
never reads or writes the agents list, so the mutated agent is returned
separately and written back by the caller. -/
def _auto_policy_for_agent (ws : WorldState) (agent : Agent) :
    WorldState × Agent × Option JVal :=
  let tick_now := clampNonNeg ws.tick 0
  let pos := agent.pos
  let goal := agent.goal
  let bal := clampNonNeg agent.balance_mon 0
  if isCapacityReason agent.last_denied_reason && isNotNone agent.last_denied_tick then
    if tick_now ≤ jToNonNeg ((agent.last_denied_tick).getD .jnull) 0 + 1 then
      let dest := _pick_next_location ws pos
      if bal < MOVE_COST_MON then
        (logEvent ws "auto_decision",
         { agent with
            last_denied_reason := none
            last_denied_tick := none
            cooldown_until_tick := max (clampNonNeg agent.cooldown_until_tick 0) (tick_now + 1) },
         none)
      else
        let queued : WorldState × Option JVal :=
          if dest ≠ pos then
            let r := _queue_action ws agent.id "move" [("to", .jstr dest)]
            (r.1, some r.2)
          else (ws, none)
        (logEvent queued.1 "auto_decision",
         { agent with
            last_denied_reason := none
            last_denied_tick := none
            cooldown_until_tick := max (clampNonNeg agent.cooldown_until_tick 0) (tick_now + 1) },
         queued.2)
    else
      let cleared := { agent with last_denied_reason := none, last_denied_tick := none }
      policyCore ws cleared tick_now pos goal bal
  else
    policyCore ws agent tick_now pos goal bal

/-- Eligibility check of the autonomy orchestrator:
`agent.get("auto") is True and agent.get("status") == "active"`. -/
def eligibleAgent (a : Agent) : Bool :=
  a.auto && a.status == "active"

/-- The agent loop of `auto_step_internal` (`src/app.py` lines 1658-1673):
the limit counter advances only on eligible agents; the break leaves the
remaining agents untouched. -/
def auto_loop (ws : WorldState) : List Agent → Nat → Nat →
    WorldState × List Agent × List JVal
  | [], _, _ => (ws, [], [])
  | a :: rest, limit, count =>
    if limit ≤ count then (ws, a :: rest, [])
    else if eligibleAgent a then
      let step := _auto_policy_for_agent ws a
      let tail := auto_loop step.1 rest limit (count + 1)
      (tail.1, step.2.1 :: tail.2.1,
       match step.2.2 with
       | some c => c :: tail.2.2
       | none => tail.2.2)
    else
      let tail := auto_loop ws rest limit count
      (tail.1, a :: tail.2.1, tail.2.2)

/-- `auto_step_internal(limit_agents)`: returns the new state and the
generated actions. -/
def auto_step_internal (limit_agents : Nat) (ws : WorldState) :
    WorldState × List JVal :=
  let r := auto_loop ws ws.agents limit_agents 0
  ({ r.1 with agents := r.2.1 }, r.2.2)

/-- Reference pass for the C10 comparison: the same agent loop with the
limit check removed, so every eligible agent receives one policy
decision. -/
def auto_loop_all (ws : WorldState) : List Agent → WorldState × List Agent × List JVal
  | [] => (ws, [], [])
  | a :: rest =>
    if eligibleAgent a then
      let step := _auto_policy_for_agent ws a
      let tail := auto_loop_all step.1 rest
      (tail.1, step.2.1 :: tail.2.1,
       match step.2.2 with
       | some c => c :: tail.2.2
       | none => tail.2.2)
    else
      let tail := auto_loop_all ws rest
      (tail.1, a :: tail.2.1, tail.2.2)

/-- Reference: autonomy pass with no agent limit. -/
def auto_step_all (ws : WorldState) : WorldState × List JVal :=
  let r := auto_loop_all ws ws.agents
  ({ r.1 with agents := r.2.1 }, r.2.2)

/-- A top-level field of a loaded `world_state` document: absent, present
but not of the container type the code checks for, or present with the
checked container type. -/
inductive RawField (α : Type) where
  | missing
  | invalid
  | val (a : α)

/-- A loaded agent dict: every key optional and raw. -/
structure RawAgent where
  id : Option JVal := none
  name : Option JVal := none
  pos : Option JVal := none
  balance_mon : Option JVal := none
  status : Option JVal := none
  inventory : Option JVal := none
  auto : Option JVal := none
  cooldown_until_tick : Option JVal := none
  goal : Option JVal := none
  last_denied_reason : Option JVal := none
  last_denied_tick : Option JVal := none

/-- An entry of a loaded `agents` list: `junk` models a non-dict element
(dropped by normalization). -/
inductive RawAgentEntry where
  | junk
  | agent (a : RawAgent)

/-- A loaded `economy` dict with raw values. -/
structure RawEconomy where
  workshop_capacity_per_tick : Option JVal := none
  workshop_capacity_left : Option JVal := none

/-- A loaded `world_state` document.  `locations` elements and retained
log entries are restricted to their well-typed shapes (the source passes
both lists through unvalidated). -/
structure RawWorld where
  tick : Option JVal := none
  locations : RawField (List String) := .missing
  agents : RawField (List RawAgentEntry) := .missing
  action_queue : RawField (List JVal) := .missing
  logs : RawField (List LogEvent) := .missing
  economy : RawField RawEconomy := .missing

/-- Agent normalization inside `_normalize_loaded_state` (`src/app.py`
lines 303-329): keep only dict agents with a positive integer id and fill
the required fields with safe defaults. -/
def normalizeAgentEntry : RawAgentEntry → Option Agent
  | .junk => none
  | .agent r =>
    let aid := pyToInt (r.id.getD .jnull) 0
    if aid ≤ 0 then none
    else
      some
        { id := aid
          name := r.name
          pos := match r.pos with
                 | some (.jstr s) => s
                 | _ => "spawn"
          balance_mon := jToNonNeg (r.balance_mon.getD (.jint 0)) 0
          status := match r.status with
                    | some (.jstr s) => s
                    | _ => "active"
          inventory := match r.inventory with
                       | some (.jarr xs) => xs
                       | _ => []
          auto := pyTruthy (r.auto.getD (.jbool false))
          cooldown_until_tick := jToNonNeg (r.cooldown_until_tick.getD (.jint 0)) 0
          goal := match r.goal with
                  | some (.jstr s) => if s ∈ ["earn", "wander", "idle"] then s else "earn"
                  | _ => "earn"
          last_denied_reason := r.last_denied_reason
          last_denied_tick := r.last_denied_tick }

/-- `_normalize_loaded_state` (`src/app.py` lines 254-331), minus the
external-entry block. -/
def _normalize_loaded_state (raw : RawWorld) : WorldState :=
  let tickN : Int :=
    match raw.tick with
    | some v => jToNonNeg v 0
    | none => 0
  let locationsN : List String :=
    match raw.locations with
    | .val xs => xs
    | _ => ["spawn", "market", "workshop"]
  let queueN : List JVal :=
    match raw.action_queue with
    | .val xs => xs
    | _ => []
  let logsN : List LogEvent :=
    match raw.logs with
    | .val xs => xs
    | _ => []
  let capPerTick0 : Int :=
    match raw.economy with
    | .val e => jToNonNeg (e.workshop_capacity_per_tick.getD (.jint 1)) 1
    | _ => 1
  let capPerTick := if capPerTick0 ≤ 0 then 1 else capPerTick0
  let capLeft : Int :=
    match raw.economy with
    | .val e => jToNonNeg (e.workshop_capacity_left.getD (.jint capPerTick)) capPerTick
    | _ => capPerTick
  let agentsN : List Agent :=
    match raw.agents with
    | .val entries => entries.filterMap normalizeAgentEntry
    | _ => []
  { tick := tickN
    locations := locationsN
    agents := agentsN
    action_queue := queueN
    logs := logsN
    economy := { workshop_capacity_per_tick := capPerTick
                 workshop_capacity_left := capLeft } }

/-- A parsed snapshot document as seen by `load_world_state`: either the
root JSON is not an object, or it is one with a raw `schema_version` and a
`world_state` field. -/
inductive SnapshotDoc where
  | notObject
  | obj (schema_version : Option JVal) (world_state : RawField RawWorld)

/-- `load_world_state` (`src/app.py` lines 333-402) after the JSON parse:
reject unsupported schema versions and non-dict `world_state`, otherwise
normalize, install, and emit `persist_load`. -/
def load_world_state : SnapshotDoc → Except String WorldState
  | .notObject => .error "Snapshot root JSON must be an object"
  | .obj sv wsField =>
    if (match sv with
        | some v => jEqInt v 1
        | none => false) then
      match wsField with
      | .val w => .ok (logEvent (_normalize_loaded_state w) "persist_load")
      | _ => .error "Snapshot world_state is invalid"
    else .error "Unsupported snapshot schema_version"

/-- Encoding of an agent into the JSON snapshot (`json.dumps` of the agent
dict, re-read as raw values). -/
def encodeAgent (a : Agent) : RawAgentEntry :=
  .agent
    { id := some (.jint a.id)
      name := a.name
      pos := some (.jstr a.pos)
      balance_mon := some (.jint a.balance_mon)
      status := some (.jstr a.status)
      inventory := some (.jarr a.inventory)
      auto := some (.jbool a.auto)
      cooldown_until_tick := some (.jint a.cooldown_until_tick)
      goal := some (.jstr a.goal)
      last_denied_reason := a.last_denied_reason
      last_denied_tick := a.last_denied_tick }

/-- `save_world_state` (`src/app.py` lines 217-252): the snapshot document
as it reads back after the JSON round trip (schema version 1, world state
copied, logs optionally dropped). -/
def save_world_state (ws : WorldState) (include_logs : Bool) : SnapshotDoc :=
  .obj (some (.jint 1))
    (.val
      { tick := some (.jint ws.tick)
        locations := .val ws.locations
        agents := .val (ws.agents.map encodeAgent)
        action_queue := .val ws.action_queue
        logs := .val (if include_logs then ws.logs else [])
        economy := .val
          { workshop_capacity_per_tick := some (.jint ws.economy.workshop_capacity_per_tick)
            workshop_capacity_left := some (.jint ws.economy.workshop_capacity_left) } })

/-! ## Theorems -/

theorem logEvent_economy (ws : WorldState) (e : String) :
    (logEvent ws e).economy = ws.economy := rfl

theorem logEvent_agents (ws : WorldState) (e : String) :
    (logEvent ws e).agents = ws.agents := rfl

theorem logEvent_tick (ws : WorldState) (e : String) :
    (logEvent ws e).tick = ws.tick := rfl

theorem logEvent_action_queue (ws : WorldState) (e : String) :
    (logEvent ws e).action_queue = ws.action_queue := rfl

theorem logEvent_locations (ws : WorldState) (e : String) :
    (logEvent ws e).locations = ws.locations := rfl

theorem mem_updateFirst {l : List Agent} {aid : Int} {f : Agent → Agent} :
    ∀ b ∈ updateFirst l aid f, b ∈ l ∨ ∃ a, a ∈ l ∧ b = f a := by
  induction l with
  | nil => intro b hb; exact absurd hb (by simp [updateFirst])
  | cons a rest ih =>
    intro b hb
    unfold updateFirst at hb
    split at hb
    · rcases List.mem_cons.mp hb with h | h
      · exact Or.inr ⟨a, List.mem_cons_self a rest, h⟩
      · exact Or.inl (List.mem_cons_of_mem a h)
    · rcases List.mem_cons.mp hb with h | h
      · exact Or.inl (by simp [h])
      · rcases ih b h with h' | ⟨x, hx, hfx⟩
        · exact Or.inl (List.mem_cons_of_mem a h')
        · exact Or.inr ⟨x, List.mem_cons_of_mem a hx, hfx⟩

theorem find_agent_id {l : List Agent} {aid : Int} {a : Agent}
    (h : find_agent l aid = some a) : a.id = aid := by
  have := List.find?_some h
  simpa using this

theorem find_agent_mem {l : List Agent} {aid : Int} {a : Agent}
    (h : find_agent l aid = some a) : a ∈ l :=
  List.mem_of_find?_eq_some h

theorem find_agent_updateFirst_self {l : List Agent} {aid : Int} {f : Agent → Agent}
    (hid : ∀ a, (f a).id = a.id) :
    find_agent (updateFirst l aid f) aid = (find_agent l aid).map f := by
  induction l with
  | nil => rfl
  | cons a rest ih =>
    unfold updateFirst
    by_cases ha : a.id = aid
    · rw [if_pos ha]
      unfold find_agent at *
      rw [List.find?_cons_of_pos _ (by simp [hid, ha]),
        List.find?_cons_of_pos _ (by simp [ha])]
      rfl
    · rw [if_neg ha]
      unfold find_agent at *
      rw [List.find?_cons_of_neg _ (by simp [ha]), List.find?_cons_of_neg _ (by simp [ha])]
      exact ih

theorem find_agent_updateFirst_ne {l : List Agent} {aid t : Int} {f : Agent → Agent}
    (hid : ∀ a, (f a).id = a.id) (hne : aid ≠ t) :
    find_agent (updateFirst l t f) aid = find_agent l aid := by
  induction l with
  | nil => rfl
  | cons a rest ih =>
    unfold updateFirst
    by_cases ha : a.id = t
    · rw [if_pos ha]
      unfold find_agent at *
      rw [List.find?_cons_of_neg _ (by simp [hid, ha, hne.symm]),
        List.find?_cons_of_neg _ (by simp [ha, hne.symm])]
    · rw [if_neg ha]
      unfold find_agent at *
      by_cases hb : a.id = aid
      · rw [List.find?_cons_of_pos _ (by simp [hb]), List.find?_cons_of_pos _ (by simp [hb])]
      · rw [List.find?_cons_of_neg _ (by simp [hb]), List.find?_cons_of_neg _ (by simp [hb])]
        exact ih

theorem updateFirst_updateFirst {l : List Agent} {aid : Int} {f g : Agent → Agent}
    (hid : ∀ a, (f a).id = a.id) :
    updateFirst (updateFirst l aid f) aid g = updateFirst l aid (fun a => g (f a)) := by
  induction l with
  | nil => rfl
  | cons a rest ih =>
    by_cases ha : a.id = aid
    · rw [show updateFirst (a :: rest) aid f = f a :: rest from by simp [updateFirst, ha]]
      simp [updateFirst, hid a, ha]
    · rw [show updateFirst (a :: rest) aid f = a :: updateFirst rest aid f from by
        simp [updateFirst, ha]]
      simp [updateFirst, ha, ih]

/-- Balances in a list stay non-negative under `updateFirst` when the
mutation maps non-negative balances to non-negative balances. -/
theorem updateFirst_balances {l : List Agent} {aid : Int} {f : Agent → Agent}
    (hl : ∀ x ∈ l, 0 ≤ x.balance_mon)
    (hf : ∀ x ∈ l, 0 ≤ x.balance_mon → 0 ≤ (f x).balance_mon) :
    ∀ x ∈ updateFirst l aid f, 0 ≤ x.balance_mon := by
  intro x hx
  rcases mem_updateFirst x hx with h | ⟨a, ha, rfl⟩
  · exact hl x h
  · exact hf a ha (hl a ha)

/-- The facts preserved by processing one queued action: per-tick capacity
untouched, remaining capacity non-increasing and non-negative, balances
non-negative, tick and queue untouched. -/
def StepPreserves (ws ws' : WorldState) : Prop :=
  ws'.economy.workshop_capacity_per_tick = ws.economy.workshop_capacity_per_tick ∧
  (0 ≤ ws.economy.workshop_capacity_left →
    0 ≤ ws'.economy.workshop_capacity_left ∧
    ws'.economy.workshop_capacity_left ≤ ws.economy.workshop_capacity_left) ∧
  ((∀ x ∈ ws.agents, 0 ≤ x.balance_mon) → ∀ x ∈ ws'.agents, 0 ≤ x.balance_mon) ∧
  ws'.tick = ws.tick ∧ ws'.action_queue = ws.action_queue

theorem stepPreserves_self (ws : WorldState) : StepPreserves ws ws :=
  ⟨rfl, fun h => ⟨h, le_rfl⟩, fun h => h, rfl, rfl⟩

theorem stepPreserves_logEvent (ws : WorldState) (e : String) :
    StepPreserves ws (logEvent ws e) :=
  ⟨rfl, fun h => ⟨h, le_rfl⟩, fun h => h, rfl, rfl⟩

theorem applyMove_preserves {ws : WorldState} {agent : Agent} {aid : Int} {p : JVal}
    {ws' : WorldState} {b : Bool} (h : applyMove ws agent aid p = some (ws', b)) :
    StepPreserves ws ws' := by
  unfold applyMove at h
  split at h
  · exact absurd h (by simp)
  · split at h
    · split at h
      · dsimp only at h
        split at h
        · simp only [Option.some.injEq, Prod.mk.injEq] at h
          obtain ⟨h1, _⟩ := h
          subst h1
          exact stepPreserves_logEvent ws _
        · rename_i hfunds
          simp only [Option.some.injEq, Prod.mk.injEq] at h
          obtain ⟨h1, _⟩ := h
          subst h1
          refine ⟨rfl, fun hle => ⟨hle, le_rfl⟩, fun hbal => ?_, rfl, rfl⟩
          show ∀ x ∈ updateFirst (updateFirst ws.agents aid _) aid _, 0 ≤ x.balance_mon
          refine updateFirst_balances (updateFirst_balances hbal ?_) ?_
          · intro x _ _
            show 0 ≤ clampNonNeg agent.balance_mon 0 - MOVE_COST_MON
            rw [not_lt] at hfunds
            omega
          · intro x _ h0
            exact h0
      · simp only [Option.some.injEq, Prod.mk.injEq] at h
        obtain ⟨h1, _⟩ := h
        subst h1
        exact stepPreserves_logEvent ws _
    · simp only [Option.some.injEq, Prod.mk.injEq] at h
      obtain ⟨h1, _⟩ := h
      subst h1
      exact stepPreserves_logEvent ws _

theorem clampNonNeg_nonneg {v d : Int} (h : 0 ≤ d) : 0 ≤ clampNonNeg v d := by
  unfold clampNonNeg
  split <;> omega

theorem jToNonNeg_nonneg {v : JVal} {d : Int} (h : 0 ≤ d) : 0 ≤ jToNonNeg v d := by
  unfold jToNonNeg
  dsimp only
  split <;> omega

theorem applyEarn_preserves {ws : WorldState} {agent : Agent} {aid : Int} {p : JVal}
    {ws' : WorldState} {b : Bool} (h : applyEarn ws agent aid p = some (ws', b)) :
    StepPreserves ws ws' := by
  simp only [applyEarn] at h
  split at h
  · simp only [Option.some.injEq, Prod.mk.injEq] at h
    obtain ⟨h1, _⟩ := h
    subst h1
    exact stepPreserves_logEvent ws _
  · split at h
    · simp only [Option.some.injEq, Prod.mk.injEq] at h
      obtain ⟨h1, _⟩ := h
      subst h1
      refine ⟨rfl, fun hle => ⟨hle, le_rfl⟩, fun hbal => ?_, rfl, rfl⟩
      show ∀ x ∈ updateFirst (updateFirst ws.agents aid _) aid _, 0 ≤ x.balance_mon
      refine updateFirst_balances (updateFirst_balances hbal ?_) ?_ <;>
        exact fun x _ h0 => h0
    · rename_i hcap
      split at h
      · exact absurd h (by simp)
      · split at h
        · simp only [Option.some.injEq, Prod.mk.injEq] at h
          obtain ⟨h1, _⟩ := h
          subst h1
          exact stepPreserves_logEvent ws _
        · rename_i hamt
          simp only [Option.some.injEq, Prod.mk.injEq] at h
          obtain ⟨h1, _⟩ := h
          subst h1
          refine ⟨rfl, fun hle => ?_, fun hbal => ?_, rfl, rfl⟩
          · show 0 ≤ clampNonNeg ws.economy.workshop_capacity_left 0 - 1 ∧
              clampNonNeg ws.economy.workshop_capacity_left 0 - 1 ≤
                ws.economy.workshop_capacity_left
            rw [not_le] at hcap
            unfold clampNonNeg at hcap ⊢
            rw [if_pos hle] at hcap ⊢
            omega
          · show ∀ x ∈ updateFirst ws.agents aid _, 0 ≤ x.balance_mon
            refine updateFirst_balances hbal ?_
            intro x _ _
            show 0 ≤ clampNonNeg x.balance_mon 0 + _
            have := @clampNonNeg_nonneg x.balance_mon 0 le_rfl
            rw [not_le] at hamt
            omega

theorem applySay_preserves {ws : WorldState} {p : JVal}
    {ws' : WorldState} {b : Bool} (h : applySay ws p = some (ws', b)) :
    StepPreserves ws ws' := by
  unfold applySay at h
  split at h
  · exact absurd h (by simp)
  · simp only [Option.some.injEq, Prod.mk.injEq] at h
    obtain ⟨h1, _⟩ := h
    subst h1
    exact stepPreserves_logEvent ws _

theorem applyTransfer_preserves {ws : WorldState} {agent : Agent} {aid : Int} {p : JVal}
    {ws' : WorldState} {b : Bool} (h : applyTransfer ws agent aid p = some (ws', b)) :
    StepPreserves ws ws' := by
  simp only [applyTransfer] at h
  split at h
  · exact absurd h (by simp)
  · exact Option.noConfusion h
  · split at h
    · injection h with h2
      injection h2 with h3 h4
      subst h3
      exact stepPreserves_logEvent ws _
    · split at h
      · injection h with h2
        injection h2 with h3 h4
        subst h3
        exact stepPreserves_logEvent ws _
      · split at h
        · injection h with h2
          injection h2 with h3 h4
          subst h3
          exact stepPreserves_logEvent ws _
        · split at h
          · injection h with h2
            injection h2 with h3 h4
            subst h3
            exact stepPreserves_logEvent ws _
          · rename_i hAmtPos
            split at h
            · injection h with h2
              injection h2 with h3 h4
              subst h3
              exact stepPreserves_logEvent ws _
            · split at h
              · injection h with h2
                injection h2 with h3 h4
                subst h3
                exact stepPreserves_logEvent ws _
              · split at h
                · injection h with h2
                  injection h2 with h3 h4
                  subst h3
                  exact stepPreserves_logEvent ws _
                · rename_i hle
                  injection h with h2
                  injection h2 with h3 h4
                  subst h3
                  refine ⟨rfl, fun hcap => ⟨hcap, le_rfl⟩, fun hbal => ?_, rfl, rfl⟩
                  show ∀ x ∈ updateFirst (updateFirst ws.agents aid _) _ _, 0 ≤ x.balance_mon
                  refine updateFirst_balances (updateFirst_balances hbal ?_) ?_
                  · intro x _ _
                    show 0 ≤ clampNonNeg agent.balance_mon 0 - _
                    rw [not_lt] at hle
                    omega
                  · intro x _ _
                    show 0 ≤ clampNonNeg x.balance_mon 0 + _
                    have := @clampNonNeg_nonneg x.balance_mon 0 le_rfl
                    rw [not_le] at hAmtPos
                    omega

theorem applyAction_preserves {ws : WorldState} {a : JVal}
    {ws' : WorldState} {b : Bool} (h : applyAction ws a = some (ws', b)) :
    StepPreserves ws ws' := by
  unfold applyAction at h
  split at h
  · rename_i fields
    split at h
    · simp only [Option.some.injEq, Prod.mk.injEq] at h
      obtain ⟨h1, _⟩ := h
      subst h1
      exact stepPreserves_logEvent ws _
    · simp only [Option.some.injEq, Prod.mk.injEq] at h
      obtain ⟨h1, _⟩ := h
      subst h1
      exact stepPreserves_logEvent ws _
    · split at h
      · simp only [Option.some.injEq, Prod.mk.injEq] at h
        obtain ⟨h1, _⟩ := h
        subst h1
        exact stepPreserves_logEvent ws _
      · split at h
        · simp only [Option.some.injEq, Prod.mk.injEq] at h
          obtain ⟨h1, _⟩ := h
          subst h1
          exact stepPreserves_logEvent ws _
        · dsimp only at h
          split at h
          · simp only [Option.some.injEq, Prod.mk.injEq] at h
            obtain ⟨h1, _⟩ := h
            subst h1
            exact stepPreserves_logEvent ws _
          · simp only [Option.some.injEq, Prod.mk.injEq] at h
            obtain ⟨h1, _⟩ := h
            subst h1
            exact stepPreserves_logEvent ws _
          · exact applyMove_preserves h
          · exact applyEarn_preserves h
          · exact applySay_preserves h
          · exact applyTransfer_preserves h
          · simp only [Option.some.injEq, Prod.mk.injEq] at h
            obtain ⟨h1, _⟩ := h
            subst h1
            exact stepPreserves_self ws
  · simp only [Option.some.injEq, Prod.mk.injEq] at h
    obtain ⟨h1, _⟩ := h
    subst h1
    exact stepPreserves_logEvent ws _

theorem stepPreserves_trans {w1 w2 w3 : WorldState}
    (a : StepPreserves w1 w2) (b : StepPreserves w2 w3) : StepPreserves w1 w3 := by
  obtain ⟨a1, a2, a3, a4, a5⟩ := a
  obtain ⟨b1, b2, b3, b4, b5⟩ := b
  refine ⟨b1.trans a1, fun h => ?_, fun h => b3 (a3 h), b4.trans a4, b5.trans a5⟩
  obtain ⟨h1, h2⟩ := a2 h
  obtain ⟨h3, h4⟩ := b2 h1
  exact ⟨h3, h4.trans h2⟩

theorem runQueue_preserves (q : List JVal) :
    ∀ ws n, StepPreserves ws (runQueue ws q n).1 := by
  induction q with
  | nil => intro ws n; exact stepPreserves_self ws
  | cons a rest ih =>
    intro ws n
    unfold runQueue
    cases happly : applyAction ws a with
    | none => exact stepPreserves_self ws
    | some r =>
      exact stepPreserves_trans (@applyAction_preserves ws a r.1 r.2
        (by rw [happly])) (ih r.1 _)

/-- The state a tick step uses while draining the detached queue: tick
incremented, capacity reset, queue detached. -/
def stepState (ws : WorldState) : WorldState :=
  { ws with
    tick := ws.tick + 1
    economy := { ws.economy with
      workshop_capacity_left :=
        if clampNonNeg ws.economy.workshop_capacity_per_tick 1 ≤ 0 then 1
        else clampNonNeg ws.economy.workshop_capacity_per_tick 1 }
    action_queue := [] }

theorem tick_step_eq (ws : WorldState) :
    tick_step ws =
      (if (runQueue (stepState ws) ws.action_queue 0).2.2
       then (logEvent (runQueue (stepState ws) ws.action_queue 0).1 "tick",
             (runQueue (stepState ws) ws.action_queue 0).2.1, true)
       else runQueue (stepState ws) ws.action_queue 0) := rfl

theorem stepState_capacity_left (ws : WorldState)
    (hper : 1 ≤ ws.economy.workshop_capacity_per_tick) :
    (stepState ws).economy.workshop_capacity_left =
      ws.economy.workshop_capacity_per_tick := by
  show (if clampNonNeg ws.economy.workshop_capacity_per_tick 1 ≤ 0 then 1
        else clampNonNeg ws.economy.workshop_capacity_per_tick 1) = _
  unfold clampNonNeg
  rw [if_pos (by omega : (0:Int) ≤ ws.economy.workshop_capacity_per_tick)]
  rw [if_neg (by omega : ¬ ws.economy.workshop_capacity_per_tick ≤ 0)]

theorem tick_step_econ (ws : WorldState)
    (hper : 1 ≤ ws.economy.workshop_capacity_per_tick) :
    (tick_step ws).1.economy.workshop_capacity_per_tick =
      ws.economy.workshop_capacity_per_tick ∧
    0 ≤ (tick_step ws).1.economy.workshop_capacity_left ∧
    (tick_step ws).1.economy.workshop_capacity_left ≤
      ws.economy.workshop_capacity_per_tick := by
  have P := runQueue_preserves ws.action_queue (stepState ws) 0
  obtain ⟨P1, P2, _, _, _⟩ := P
  rw [stepState_capacity_left ws hper] at P2
  obtain ⟨P2a, P2b⟩ := P2 (by omega)
  rw [tick_step_eq]
  split
  · exact ⟨P1, P2a, P2b⟩
  · exact ⟨P1, P2a, P2b⟩

theorem tick_step_balances (ws : WorldState)
    (h : ∀ x ∈ ws.agents, 0 ≤ x.balance_mon) :
    ∀ x ∈ (tick_step ws).1.agents, 0 ≤ x.balance_mon := by
  have P := (runQueue_preserves ws.action_queue (stepState ws) 0).2.2.1
  rw [tick_step_eq]
  split
  · exact P h
  · exact P h

theorem tick_loop_econ (p : Int) (hp : 1 ≤ p) :
    ∀ n ws total, ws.economy.workshop_capacity_per_tick = p →
      0 ≤ ws.economy.workshop_capacity_left →
      ws.economy.workshop_capacity_left ≤ p →
      (tick_loop n ws total).1.economy.workshop_capacity_per_tick = p ∧
      0 ≤ (tick_loop n ws total).1.economy.workshop_capacity_left ∧
      (tick_loop n ws total).1.economy.workshop_capacity_left ≤ p := by
  intro n
  induction n with
  | zero => intro ws total h1 h2 h3; exact ⟨h1, h2, h3⟩
  | succ m ih =>
    intro ws total h1 h2 h3
    have hstep := tick_step_econ ws (by omega)
    rw [h1] at hstep
    simp only [tick_loop]
    split
    · exact ih _ _ hstep.1 hstep.2.1 hstep.2.2
    · exact hstep

theorem tick_loop_balances :
    ∀ n (ws : WorldState) total, (∀ x ∈ ws.agents, 0 ≤ x.balance_mon) →
      ∀ x ∈ (tick_loop n ws total).1.agents, 0 ≤ x.balance_mon := by
  intro n
  induction n with
  | zero => intro ws total h; exact h
  | succ m ih =>
    intro ws total h
    simp only [tick_loop]
    split
    · exact ih _ _ (tick_step_balances ws h)
    · exact tick_step_balances ws h

theorem policy_agent_balance (ws : WorldState) (a : Agent) :
    ((_auto_policy_for_agent ws a).2.1).balance_mon = a.balance_mon := by
  simp only [_auto_policy_for_agent, policyCore]
  repeat' split
  all_goals rfl

theorem auto_loop_balances (l : List Agent) :
    ∀ ws limit count, (∀ x ∈ l, 0 ≤ x.balance_mon) →
      ∀ x ∈ (auto_loop ws l limit count).2.1, 0 ≤ x.balance_mon := by
  induction l with
  | nil => intro ws limit count _ x hx; exact absurd hx (by simp [auto_loop])
  | cons a rest ih =>
    intro ws limit count h x hx
    unfold auto_loop at hx
    split at hx
    · exact h x hx
    · split at hx
      · rcases List.mem_cons.mp hx with hhd | htl
        · rw [hhd, policy_agent_balance]
          exact h a (by simp)
        · exact ih _ limit (count + 1) (fun y hy => h y (by simp [hy])) x htl
      · rcases List.mem_cons.mp hx with hhd | htl
        · rw [hhd]
          exact h a (by simp)
        · exact ih _ limit count (fun y hy => h y (by simp [hy])) x htl

theorem act_ok_eq {ws : WorldState} {aid : Int} {ty : ActionType}
    {pl : List (String × JVal)} {out : WorldState × JVal}
    (h : act ws aid ty pl = .ok out) : out = _queue_action ws aid ty.toStr pl := by
  simp only [act] at h
  split at h
  · exact Except.noConfusion h
  · repeat' split at h
    all_goals
      first
        | exact Except.noConfusion h
        | (injection h with h2; exact h2.symm)

theorem normalizeAgentEntry_balance {e : RawAgentEntry} {a : Agent}
    (h : normalizeAgentEntry e = some a) : 0 ≤ a.balance_mon := by
  cases e with
  | junk => exact Option.noConfusion h
  | agent r =>
    simp only [normalizeAgentEntry] at h
    split at h
    · exact Option.noConfusion h
    · injection h with h2
      rw [← h2]
      exact jToNonNeg_nonneg le_rfl

theorem normalize_balances (raw : RawWorld) :
    ∀ x ∈ (_normalize_loaded_state raw).agents, 0 ≤ x.balance_mon := by
  intro x hx
  unfold _normalize_loaded_state at hx
  dsimp only at hx
  split at hx
  · obtain ⟨e, _, he⟩ := List.mem_filterMap.mp hx
    exact normalizeAgentEntry_balance he
  · exact absurd hx (by simp)

theorem load_ok_balances {doc : SnapshotDoc} {ws' : WorldState}
    (h : load_world_state doc = .ok ws') : ∀ x ∈ ws'.agents, 0 ≤ x.balance_mon := by
  cases doc with
  | notObject => exact Except.noConfusion h
  | obj sv wf =>
    simp only [load_world_state] at h
    split at h
    · split at h
      · rename_i w
        injection h with h2
        rw [← h2]
        intro x hx
        exact normalize_balances w x hx
      · exact Except.noConfusion h
    · exact Except.noConfusion h

/-- C1: every core operation keeps all agent balances non-negative: a
successful `act` does not touch balances, the tick processor (any queued
move/earn/say/transfer actions, any step count) debits a move or transfer
only when covered, the autonomy step never touches balances, `join`
requires a non-negative deposit, reset clears to the default state, and
snapshot load clamps loaded balances to non-negative values. -/
theorem balances_never_negative :
    (∀ ws aid ty pl out, (∀ x ∈ ws.agents, 0 ≤ x.balance_mon) →
       act ws aid ty pl = .ok out → ∀ x ∈ out.1.agents, 0 ≤ x.balance_mon) ∧
    (∀ ws steps, (∀ x ∈ ws.agents, 0 ≤ x.balance_mon) →
       ∀ x ∈ (tick steps ws).ws.agents, 0 ≤ x.balance_mon) ∧
    (∀ ws limit, (∀ x ∈ ws.agents, 0 ≤ x.balance_mon) →
       ∀ x ∈ (auto_step_internal limit ws).1.agents, 0 ≤ x.balance_mon) ∧
    (∀ ws name d, 0 ≤ d → (∀ x ∈ ws.agents, 0 ≤ x.balance_mon) →
       ∀ x ∈ (join ws name d).1.agents, 0 ≤ x.balance_mon) ∧
    (∀ x ∈ resetWorld.agents, 0 ≤ x.balance_mon) ∧
    (∀ doc ws', load_world_state doc = .ok ws' →
       ∀ x ∈ ws'.agents, 0 ≤ x.balance_mon) := by
  refine ⟨?_, ?_, ?_, ?_, ?_, ?_⟩
  · intro ws aid ty pl out hbal h x hx
    rw [act_ok_eq h] at hx
    exact hbal x hx
  · intro ws steps hbal
    exact tick_loop_balances steps { ws with tick := clampNonNeg ws.tick 0 } 0 hbal
  · intro ws limit hbal
    exact auto_loop_balances ws.agents ws limit 0 hbal
  · intro ws name d hd hbal x hx
    have hx' : x ∈ ws.agents ++ [_] := hx
    rcases List.mem_append.mp hx' with hmem | hnew
    · exact hbal x hmem
    · simp at hnew
      rw [hnew]
      exact hd
  · intro x hx
    exact absurd hx (by simp [resetWorld, logEvent, make_initial_world_state])
  · intro doc ws' h
    exact load_ok_balances h

/-- Witness for C1: a two-agent world with a funded move, an earn and a
transfer queued keeps balances non-negative through a tick step. -/
def balancesWitnessWorld : WorldState :=
  { make_initial_world_state with
    agents :=
      [{ id := 1, balance_mon := 2, pos := "workshop", status := "active",
         auto := false, cooldown_until_tick := 0, goal := "earn" },
       { id := 2, balance_mon := 0, pos := "spawn", status := "active",
         auto := false, cooldown_until_tick := 0, goal := "earn" }],
    action_queue :=
      [.jobj [("agent_id", .jint 1), ("type", .jstr "earn"),
              ("payload", .jobj [("amount", .jint 3)])],
       .jobj [("agent_id", .jint 1), ("type", .jstr "transfer"),
              ("payload", .jobj [("to_agent_id", .jint 2), ("amount", .jint 5)])],
       .jobj [("agent_id", .jint 2), ("type", .jstr "move"),
              ("payload", .jobj [("to", .jstr "market")])]] }

theorem balances_never_negative_witness :
    ∀ x ∈ (tick 1 balancesWitnessWorld).ws.agents, 0 ≤ x.balance_mon :=
  balances_never_negative.2.1 balancesWitnessWorld 1 (by decide)

theorem auto_loop_all_no_eligible (l : List Agent) :
    ∀ ws, l.countP eligibleAgent = 0 → auto_loop_all ws l = (ws, l, []) := by
  induction l with
  | nil => intro ws _; rfl
  | cons a rest ih =>
    intro ws h
    rw [List.countP_cons] at h
    have he : ¬ eligibleAgent a := by
      intro hc
      rw [if_pos hc] at h
      omega
    rw [if_neg he] at h
    unfold auto_loop_all
    rw [if_neg he]
    simp only [ih ws (by omega)]

theorem auto_loop_limit_eq_all (l : List Agent) :
    ∀ ws limit count, l.countP eligibleAgent + count ≤ limit →
      auto_loop ws l limit count = auto_loop_all ws l := by
  induction l with
  | nil => intro ws limit count _; rfl
  | cons a rest ih =>
    intro ws limit count h
    rw [List.countP_cons] at h
    unfold auto_loop auto_loop_all
    by_cases hbreak : limit ≤ count
    · have he : ¬ eligibleAgent a := by
        intro hc
        rw [if_pos hc] at h
        omega
      rw [if_neg he] at h
      rw [if_pos hbreak, if_neg he]
      simp only [auto_loop_all_no_eligible rest ws (by omega)]
    · rw [if_neg hbreak]
      by_cases he : eligibleAgent a
      · rw [if_pos he] at h
        rw [if_pos he, if_pos he]
        simp only [ih _ limit (count + 1) (by omega)]
      · rw [if_neg he] at h
        rw [if_neg he, if_neg he]
        simp only [ih _ limit count (by omega)]

/-- C10: in `auto_step_internal`, the agent limit is consumed only by
eligible agents (`auto = true` and `status = "active"`); when the world has
at most `limit` eligible agents, the limited pass coincides with the pass
that gives every eligible agent exactly one policy decision, however many
ineligible agents precede them. -/
theorem auto_step_limit_eligible_only (ws : WorldState) (limit : Nat)
    (h : ws.agents.countP eligibleAgent ≤ limit) :
    auto_step_internal limit ws = auto_step_all ws := by
  unfold auto_step_internal auto_step_all
  rw [auto_loop_limit_eq_all ws.agents ws limit 0 (by omega)]

/-- Concrete world for the C10 witness: two ineligible agents surround one
eligible agent. -/
def limitWitnessWorld : WorldState :=
  { make_initial_world_state with
    agents :=
      [{ id := 1, balance_mon := 3, pos := "spawn", status := "active",
         auto := false, cooldown_until_tick := 0, goal := "earn" },
       { id := 2, balance_mon := 3, pos := "spawn", status := "active",
         auto := true, cooldown_until_tick := 0, goal := "wander" },
       { id := 3, balance_mon := 3, pos := "spawn", status := "idle",
         auto := true, cooldown_until_tick := 0, goal := "earn" }] }

theorem auto_step_limit_eligible_only_witness :
    auto_step_internal 1 limitWitnessWorld = auto_step_all limitWitnessWorld :=
  auto_step_limit_eligible_only limitWitnessWorld 1 (by decide)

/-- A world as produced by loading a snapshot whose queue holds an action
with a non-dict `payload` (reachable: `_normalize_loaded_state` passes
queue entries through unvalidated). -/
def nonDictPayloadWorld : WorldState :=
  { make_initial_world_state with
    agents :=
      [{ id := 1, balance_mon := 0, pos := "spawn", status := "active",
         auto := false, cooldown_until_tick := 0, goal := "earn" }],
    action_queue := [.jobj [("agent_id", .jint 1), ("type", .jstr "say"), ("payload", .jint 5)]] }

/-- C2: refuted by the code — a queued `say` action whose loaded `payload`
is the integer 5 makes `payload.get("text", ...)` raise an unhandled
`AttributeError`, aborting the tick processing: with `steps = 2` the tick
counter advances by only 1 and the call fails instead of returning the
final tick and applied count. -/
theorem tick_aborts_on_nondict_payload :
    (tick 2 nonDictPayloadWorld).ok = false ∧
    (tick 2 nonDictPayloadWorld).ws.tick = nonDictPayloadWorld.tick + 1 ∧
    (tick 2 nonDictPayloadWorld).applied = 0 :=
  ⟨rfl, rfl, rfl⟩

theorem normalize_econ (raw : RawWorld) :
    1 ≤ (_normalize_loaded_state raw).economy.workshop_capacity_per_tick ∧
    0 ≤ (_normalize_loaded_state raw).economy.workshop_capacity_left := by
  unfold _normalize_loaded_state
  dsimp only
  cases raw.economy with
  | missing => exact ⟨by norm_num, by norm_num⟩
  | invalid => exact ⟨by norm_num, by norm_num⟩
  | val e =>
    have h0 : 0 ≤ jToNonNeg (e.workshop_capacity_per_tick.getD (.jint 1)) 1 :=
      jToNonNeg_nonneg (by omega)
    have hper : (0:Int) ≤
        (if jToNonNeg (e.workshop_capacity_per_tick.getD (.jint 1)) 1 ≤ 0 then 1
         else jToNonNeg (e.workshop_capacity_per_tick.getD (.jint 1)) 1) := by
      split <;> omega
    constructor
    · dsimp only
      split <;> omega
    · dsimp only
      exact jToNonNeg_nonneg hper

/-- C3 (amended): snapshot load guarantees `capacityPerTick ≥ 1` and
`capacityLeft ≥ 0` (but not `capacityLeft ≤ capacityPerTick`); a tick step
resets `capacityLeft` to `capacityPerTick` at its start; mid-step the
remaining capacity only decreases and stays non-negative; and after any
tick call on a state with `capacityPerTick ≥ 1` the economy satisfies
`0 ≤ capacityLeft ≤ capacityPerTick` with `capacityPerTick` unchanged. -/
theorem capacity_invariant :
    (∀ raw, 1 ≤ (_normalize_loaded_state raw).economy.workshop_capacity_per_tick ∧
       0 ≤ (_normalize_loaded_state raw).economy.workshop_capacity_left) ∧
    (∀ ws, 1 ≤ ws.economy.workshop_capacity_per_tick →
       (stepState ws).economy.workshop_capacity_left =
         ws.economy.workshop_capacity_per_tick ∧
       tick_step { ws with action_queue := [] } =
         (logEvent (stepState { ws with action_queue := [] }) "tick", 0, true)) ∧
    (∀ ws q n, 0 ≤ ws.economy.workshop_capacity_left →
       0 ≤ (runQueue ws q n).1.economy.workshop_capacity_left ∧
       (runQueue ws q n).1.economy.workshop_capacity_left ≤
         ws.economy.workshop_capacity_left ∧
       (runQueue ws q n).1.economy.workshop_capacity_per_tick =
         ws.economy.workshop_capacity_per_tick) ∧
    (∀ ws steps, 1 ≤ ws.economy.workshop_capacity_per_tick → 1 ≤ steps →
       (tick steps ws).ws.economy.workshop_capacity_per_tick =
         ws.economy.workshop_capacity_per_tick ∧
       0 ≤ (tick steps ws).ws.economy.workshop_capacity_left ∧
       (tick steps ws).ws.economy.workshop_capacity_left ≤
         ws.economy.workshop_capacity_per_tick) := by
  refine ⟨normalize_econ, ?_, ?_, ?_⟩
  · intro ws hper
    refine ⟨stepState_capacity_left ws hper, ?_⟩
    rw [tick_step_eq]
    rfl
  · intro ws q n h
    have P := runQueue_preserves q ws n
    obtain ⟨P1, P2, _, _, _⟩ := P
    obtain ⟨P2a, P2b⟩ := P2 h
    exact ⟨P2a, P2b, P1⟩
  · intro ws steps hper hsteps
    cases steps with
    | zero => omega
    | succ m =>
      show _ ∧ _ ∧ _
      have hstep := tick_step_econ { ws with tick := clampNonNeg ws.tick 0 } hper
      have hloop := tick_loop_econ ws.economy.workshop_capacity_per_tick hper m
      unfold tick tick_loop
      dsimp only
      split
      · exact hloop _ _ hstep.1 hstep.2.1 hstep.2.2
      · exact hstep

/-- Witness for C3 at a concrete loaded document and a concrete two-step
tick call. -/
theorem capacity_invariant_witness :
    (1 ≤ (_normalize_loaded_state { tick := some (.jint 7) }).economy.workshop_capacity_per_tick ∧
     0 ≤ (_normalize_loaded_state { tick := some (.jint 7) }).economy.workshop_capacity_left) ∧
    (0 ≤ (tick 2 balancesWitnessWorld).ws.economy.workshop_capacity_left ∧
     (tick 2 balancesWitnessWorld).ws.economy.workshop_capacity_left ≤
       balancesWitnessWorld.economy.workshop_capacity_per_tick) :=
  ⟨capacity_invariant.1 { tick := some (.jint 7) },
   ⟨(capacity_invariant.2.2.2 balancesWitnessWorld 2 (by decide) (by decide)).2.1,
    (capacity_invariant.2.2.2 balancesWitnessWorld 2 (by decide) (by decide)).2.2⟩⟩

/-- A schema-version-1 snapshot whose economy reports more capacity left
than the per-tick capacity. -/
def overCapacityDoc : SnapshotDoc :=
  .obj (some (.jint 1))
    (.val { economy := .val { workshop_capacity_per_tick := some (.jint 1),
                              workshop_capacity_left := some (.jint 5) } })

/-- C3 counterexample: `loadSnapshot` on a valid schema-version-1 document
yields `capacityLeft = 5 > 1 = capacityPerTick`; the load-time
normalization does not clamp `capacityLeft` to `capacityPerTick`. -/
theorem load_capacity_left_exceeds_per_tick :
    (load_world_state overCapacityDoc).map (fun w => w.economy.workshop_capacity_left) = .ok 5 ∧
    (load_world_state overCapacityDoc).map (fun w => w.economy.workshop_capacity_per_tick) = .ok 1 ∧
    ¬ ((5 : Int) ≤ 1) :=
  ⟨rfl, rfl, by decide⟩

theorem payload_obj_truthy (pl : List (String × JVal)) :
    (if pyTruthy (JVal.jobj pl) then JVal.jobj pl else JVal.jobj []) = JVal.jobj pl := by
  cases pl with
  | nil => rfl
  | cons a as => rfl

theorem applyAction_earn_eq {ws : WorldState} {aid q : Int} {ag : Agent}
    {pl : List (String × JVal)} (hfind : find_agent ws.agents aid = some ag) :
    applyAction ws (mkAction q aid "earn" pl) = applyEarn ws ag aid (.jobj pl) := by
  rw [show applyAction ws (mkAction q aid "earn" pl) =
      (match find_agent ws.agents aid with
       | none => some (logEvent ws "action_skipped_unknown_agent", false)
       | some agent => applyEarn ws agent aid
           (if pyTruthy (JVal.jobj pl) then JVal.jobj pl else JVal.jobj [])) from rfl,
    hfind]
  dsimp only
  rw [payload_obj_truthy]

theorem applyAction_transfer_eq {ws : WorldState} {aid q : Int} {ag : Agent}
    {pl : List (String × JVal)} (hfind : find_agent ws.agents aid = some ag) :
    applyAction ws (mkAction q aid "transfer" pl) = applyTransfer ws ag aid (.jobj pl) := by
  rw [show applyAction ws (mkAction q aid "transfer" pl) =
      (match find_agent ws.agents aid with
       | none => some (logEvent ws "action_skipped_unknown_agent", false)
       | some agent => applyTransfer ws agent aid
           (if pyTruthy (JVal.jobj pl) then JVal.jobj pl else JVal.jobj [])) from rfl,
    hfind]
  dsimp only
  rw [payload_obj_truthy]

theorem clampNonNeg_zero_le_zero_iff (v : Int) : clampNonNeg v 0 ≤ 0 ↔ v ≤ 0 := by
  unfold clampNonNeg
  split <;> omega

/-- C4: the checks and effects of applying a queued `earn` action for an
existing agent, in order: wrong location emits only
`earn_denied_wrong_location`; exhausted capacity emits
`earn_denied_capacity` and `cooldown_penalty`, sets
`cooldownUntilTick = max(current, tick+2)`, records the capacity denial,
and does not apply; a non-positive parsed amount emits
`earn_denied_invalid_amount`; otherwise the balance is credited, the
remaining capacity is decremented, `earn` is emitted and the action counts
as applied. -/
theorem earn_apply_cases (ws : WorldState) (aid q : Int) (agent : Agent)
    (pl : List (String × JVal)) (hfind : find_agent ws.agents aid = some agent) :
    (applyAction ws (mkAction q aid "earn" pl) = applyEarn ws agent aid (.jobj pl)) ∧
    (agent.pos ≠ "workshop" →
      applyEarn ws agent aid (.jobj pl) =
        some (logEvent ws "earn_denied_wrong_location", false)) ∧
    (agent.pos = "workshop" → ws.economy.workshop_capacity_left ≤ 0 →
      ∃ ws2, applyEarn ws agent aid (.jobj pl) = some (ws2, false) ∧
        ws2.tick = ws.tick ∧ ws2.locations = ws.locations ∧
        ws2.action_queue = ws.action_queue ∧ ws2.economy = ws.economy ∧
        ws2.logs = pushLog
          (pushLog ws.logs { tick := ws.tick, event := "earn_denied_capacity" })
          { tick := ws.tick, event := "cooldown_penalty" } ∧
        ws2.agents = updateFirst ws.agents aid (fun a =>
          { a with
            cooldown_until_tick := max (clampNonNeg a.cooldown_until_tick 0) (ws.tick + 2)
            last_denied_reason := some (.jstr "capacity")
            last_denied_tick := some (.jint ws.tick) })) ∧
    (agent.pos = "workshop" → 0 < ws.economy.workshop_capacity_left →
      pyToInt ((pget pl "amount").getD (.jint 1)) 0 ≤ 0 →
      applyEarn ws agent aid (.jobj pl) =
        some (logEvent ws "earn_denied_invalid_amount", false)) ∧
    (agent.pos = "workshop" → 0 < ws.economy.workshop_capacity_left →
      0 < pyToInt ((pget pl "amount").getD (.jint 1)) 0 →
      ∃ ws2, applyEarn ws agent aid (.jobj pl) = some (ws2, true) ∧
        ws2.tick = ws.tick ∧ ws2.locations = ws.locations ∧
        ws2.action_queue = ws.action_queue ∧
        ws2.economy.workshop_capacity_per_tick =
          ws.economy.workshop_capacity_per_tick ∧
        ws2.economy.workshop_capacity_left =
          ws.economy.workshop_capacity_left - 1 ∧
        ws2.logs = pushLog ws.logs { tick := ws.tick, event := "earn" } ∧
        ws2.agents = updateFirst ws.agents aid (fun a =>
          { a with balance_mon := clampNonNeg a.balance_mon 0 +
              pyToInt ((pget pl "amount").getD (.jint 1)) 0 })) := by
  refine ⟨applyAction_earn_eq hfind, ?_, ?_, ?_, ?_⟩
  · intro hpos
    unfold applyEarn
    rw [if_pos hpos]
  · intro hpos hcap
    unfold applyEarn
    rw [if_neg (by simp [hpos])]
    dsimp only
    rw [if_pos ((clampNonNeg_zero_le_zero_iff _).mpr hcap)]
    refine ⟨_, rfl, rfl, rfl, rfl, rfl, rfl, ?_⟩
    show updateFirst (updateFirst ws.agents aid (fun a =>
        { a with cooldown_until_tick := max (clampNonNeg a.cooldown_until_tick 0) (ws.tick + 2) }))
      aid (fun a =>
        { a with last_denied_reason := some (.jstr "capacity"), last_denied_tick := some (.jint ws.tick) }) = _
    exact updateFirst_updateFirst (fun a => rfl)
  · intro hpos hcap hamt
    unfold applyEarn
    rw [if_neg (by simp [hpos])]
    try dsimp only
    rw [if_neg (by rw [clampNonNeg_zero_le_zero_iff]; omega)]
    rw [show dictGet? (JVal.jobj pl) "amount" = some (pget pl "amount") from rfl]
    dsimp only
    rw [if_pos hamt]
  · intro hpos hcap hamt
    unfold applyEarn
    rw [if_neg (by simp [hpos])]
    try dsimp only
    rw [if_neg (by rw [clampNonNeg_zero_le_zero_iff]; omega)]
    rw [show dictGet? (JVal.jobj pl) "amount" = some (pget pl "amount") from rfl]
    dsimp only
    rw [if_neg (by omega)]
    refine ⟨_, rfl, rfl, rfl, rfl, rfl, ?_, rfl, rfl⟩
    show clampNonNeg ws.economy.workshop_capacity_left 0 - 1 = _
    unfold clampNonNeg
    rw [if_pos (by omega)]

/-- Witness for C4: concrete earn applications in each claimed branch. -/
def earnWitnessWorld : WorldState :=
  { make_initial_world_state with
    agents :=
      [{ id := 1, balance_mon := 4, pos := "workshop", status := "active",
         auto := false, cooldown_until_tick := 0, goal := "earn" }] }

theorem earn_apply_cases_witness :
    ∃ ws2, applyEarn earnWitnessWorld
        ({ id := 1, balance_mon := 4, pos := "workshop", status := "active",
           auto := false, cooldown_until_tick := 0, goal := "earn" } : Agent) 1
        (.jobj [("amount", .jint 3)]) = some (ws2, true) ∧
      ws2.tick = earnWitnessWorld.tick ∧
      ws2.locations = earnWitnessWorld.locations ∧
      ws2.action_queue = earnWitnessWorld.action_queue ∧
      ws2.economy.workshop_capacity_per_tick =
        earnWitnessWorld.economy.workshop_capacity_per_tick ∧
      ws2.economy.workshop_capacity_left =
        earnWitnessWorld.economy.workshop_capacity_left - 1 ∧
      ws2.logs = pushLog earnWitnessWorld.logs
        { tick := earnWitnessWorld.tick, event := "earn" } ∧
      ws2.agents = updateFirst earnWitnessWorld.agents 1 (fun a =>
        { a with balance_mon := clampNonNeg a.balance_mon 0 +
            pyToInt ((pget [("amount", .jint 3)] "amount").getD (.jint 1)) 0 }) :=
  (earn_apply_cases earnWitnessWorld 1 0 _ [("amount", .jint 3)] rfl).2.2.2.2
    rfl (by decide) (by decide)

/-- C5: applying a queued `transfer` is atomic: every denial (invalid or
non-positive target or amount, self-transfer, receiver missing at apply
time, insufficient sender funds) leaves every agent's balance unchanged
and adds exactly one denial event, while a successful transfer debits the
sender and credits the receiver by exactly the amount, preserving the sum
of their balances, and emits `transfer`. -/
theorem transfer_apply_atomic (ws : WorldState) (aid q : Int) (sender : Agent)
    (pl : List (String × JVal)) (hfind : find_agent ws.agents aid = some sender) :
    (applyAction ws (mkAction q aid "transfer" pl) =
      applyTransfer ws sender aid (.jobj pl)) ∧
    (jAsInt? ((pget pl "to_agent_id").getD .jnull) = none →
      applyTransfer ws sender aid (.jobj pl) =
        some (logEvent ws "transfer_denied_invalid_target", false)) ∧
    (∀ t, jAsInt? ((pget pl "to_agent_id").getD .jnull) = some t → t ≤ 0 →
      applyTransfer ws sender aid (.jobj pl) =
        some (logEvent ws "transfer_denied_invalid_target", false)) ∧
    (∀ t, jAsInt? ((pget pl "to_agent_id").getD .jnull) = some t → 0 < t →
      jAsInt? ((pget pl "amount").getD .jnull) = none →
      applyTransfer ws sender aid (.jobj pl) =
        some (logEvent ws "transfer_denied_invalid_amount", false)) ∧
    (∀ t n, jAsInt? ((pget pl "to_agent_id").getD .jnull) = some t → 0 < t →
      jAsInt? ((pget pl "amount").getD .jnull) = some n → n ≤ 0 →
      applyTransfer ws sender aid (.jobj pl) =
        some (logEvent ws "transfer_denied_invalid_amount", false)) ∧
    (∀ t n, jAsInt? ((pget pl "to_agent_id").getD .jnull) = some t → 0 < t →
      jAsInt? ((pget pl "amount").getD .jnull) = some n → 0 < n → t = aid →
      applyTransfer ws sender aid (.jobj pl) =
        some (logEvent ws "transfer_denied_same_agent", false)) ∧
    (∀ t n, jAsInt? ((pget pl "to_agent_id").getD .jnull) = some t → 0 < t →
      jAsInt? ((pget pl "amount").getD .jnull) = some n → 0 < n → t ≠ aid →
      find_agent ws.agents t = none →
      applyTransfer ws sender aid (.jobj pl) =
        some (logEvent ws "transfer_denied_unknown_target", false)) ∧
    (∀ t n recv, jAsInt? ((pget pl "to_agent_id").getD .jnull) = some t → 0 < t →
      jAsInt? ((pget pl "amount").getD .jnull) = some n → 0 < n → t ≠ aid →
      find_agent ws.agents t = some recv →
      clampNonNeg sender.balance_mon 0 < n →
      applyTransfer ws sender aid (.jobj pl) =
        some (logEvent ws "transfer_denied_insufficient_funds", false)) ∧
    (∀ t n recv, jAsInt? ((pget pl "to_agent_id").getD .jnull) = some t → 0 < t →
      jAsInt? ((pget pl "amount").getD .jnull) = some n → 0 < n → t ≠ aid →
      find_agent ws.agents t = some recv →
      n ≤ clampNonNeg sender.balance_mon 0 →
      ∃ ws2, applyTransfer ws sender aid (.jobj pl) = some (ws2, true) ∧
        ws2.tick = ws.tick ∧ ws2.locations = ws.locations ∧
        ws2.action_queue = ws.action_queue ∧ ws2.economy = ws.economy ∧
        ws2.logs = pushLog ws.logs { tick := ws.tick, event := "transfer" } ∧
        ws2.agents = updateFirst (updateFirst ws.agents aid (fun a =>
            { a with balance_mon := clampNonNeg sender.balance_mon 0 - n })) t
          (fun a => { a with balance_mon := clampNonNeg a.balance_mon 0 + n }) ∧
        (0 ≤ sender.balance_mon → 0 ≤ recv.balance_mon →
          find_agent ws2.agents aid =
            some { sender with balance_mon := sender.balance_mon - n } ∧
          find_agent ws2.agents t =
            some { recv with balance_mon := recv.balance_mon + n } ∧
          (sender.balance_mon - n) + (recv.balance_mon + n) =
            sender.balance_mon + recv.balance_mon)) := by
  have hget1 : dictGet? (JVal.jobj pl) "to_agent_id" = some (pget pl "to_agent_id") := rfl
  have hget2 : dictGet? (JVal.jobj pl) "amount" = some (pget pl "amount") := rfl
  refine ⟨applyAction_transfer_eq hfind, ?_, ?_, ?_, ?_, ?_, ?_, ?_, ?_⟩
  · intro ht
    unfold applyTransfer
    rw [hget1, hget2]
    dsimp only
    rw [ht]
  · intro t ht hle
    unfold applyTransfer
    rw [hget1, hget2]
    dsimp only
    rw [ht]
    dsimp only
    rw [if_pos hle]
  · intro t ht htpos hn
    unfold applyTransfer
    rw [hget1, hget2]
    dsimp only
    rw [ht]
    dsimp only
    rw [if_neg (by omega), hn]
  · intro t n ht htpos hn hnle
    unfold applyTransfer
    rw [hget1, hget2]
    dsimp only
    rw [ht]
    dsimp only
    rw [if_neg (by omega), hn]
    dsimp only
    rw [if_pos hnle]
  · intro t n ht htpos hn hnpos hsame
    unfold applyTransfer
    rw [hget1, hget2]
    dsimp only
    rw [ht]
    dsimp only
    rw [if_neg (by omega), hn]
    dsimp only
    rw [if_neg (by omega), if_pos hsame]
  · intro t n ht htpos hn hnpos hne hrecv
    unfold applyTransfer
    rw [hget1, hget2]
    dsimp only
    rw [ht]
    dsimp only
    rw [if_neg (by omega), hn]
    dsimp only
    rw [if_neg (by omega), if_neg hne, hrecv]
  · intro t n recv ht htpos hn hnpos hne hrecv hfunds
    unfold applyTransfer
    rw [hget1, hget2]
    dsimp only
    rw [ht]
    dsimp only
    rw [if_neg (by omega), hn]
    dsimp only
    rw [if_neg (by omega), if_neg hne, hrecv]
    dsimp only
    rw [if_pos hfunds]
  · intro t n recv ht htpos hn hnpos hne hrecv hfunds
    unfold applyTransfer
    rw [hget1, hget2]
    dsimp only
    rw [ht]
    dsimp only
    rw [if_neg (by omega), hn]
    dsimp only
    rw [if_neg (by omega), if_neg hne, hrecv]
    dsimp only
    rw [if_neg (by omega)]
    refine ⟨_, rfl, rfl, rfl, rfl, rfl, rfl, rfl, ?_⟩
    intro hs hr
    have hsid : sender.id = aid := find_agent_id hfind
    have hclamps : clampNonNeg sender.balance_mon 0 = sender.balance_mon := by
      unfold clampNonNeg
      rw [if_pos hs]
    refine ⟨?_, ?_, by ring⟩
    · show find_agent (updateFirst (updateFirst ws.agents aid fun a =>
          { a with balance_mon := clampNonNeg sender.balance_mon 0 - n }) t fun a =>
          { a with balance_mon := clampNonNeg a.balance_mon 0 + n }) aid = _
      rw [@find_agent_updateFirst_ne
          (updateFirst ws.agents aid fun a =>
            { a with balance_mon := clampNonNeg sender.balance_mon 0 - n }) aid t
          (fun a => { a with balance_mon := clampNonNeg a.balance_mon 0 + n })
          (fun a => rfl) (Ne.symm hne),
        @find_agent_updateFirst_self ws.agents aid
          (fun a => { a with balance_mon := clampNonNeg sender.balance_mon 0 - n })
          (fun a => rfl), hfind]
      show some _ = _
      rw [hclamps]
    · show find_agent (updateFirst (updateFirst ws.agents aid fun a =>
          { a with balance_mon := clampNonNeg sender.balance_mon 0 - n }) t fun a =>
          { a with balance_mon := clampNonNeg a.balance_mon 0 + n }) t = _
      rw [@find_agent_updateFirst_self
          (updateFirst ws.agents aid fun a =>
            { a with balance_mon := clampNonNeg sender.balance_mon 0 - n }) t
          (fun a => { a with balance_mon := clampNonNeg a.balance_mon 0 + n })
          (fun a => rfl),
        @find_agent_updateFirst_ne ws.agents t aid
          (fun a => { a with balance_mon := clampNonNeg sender.balance_mon 0 - n })
          (fun a => rfl) hne, hrecv]
      have hclampr : clampNonNeg recv.balance_mon 0 = recv.balance_mon := by
        unfold clampNonNeg
        rw [if_pos hr]
      simp only [Option.map_some', hclampr]

/-- Witness for C5 at the spec's scenario: agent 1 with balance 3
transfers 5 to agent 2, denied for insufficient funds with no balance
change. -/
def transferWitnessWorld : WorldState :=
  { make_initial_world_state with
    agents :=
      [{ id := 1, balance_mon := 3, pos := "spawn", status := "active",
         auto := false, cooldown_until_tick := 0, goal := "earn" },
       { id := 2, balance_mon := 10, pos := "spawn", status := "active",
         auto := false, cooldown_until_tick := 0, goal := "earn" }] }

theorem transfer_apply_atomic_witness :
    applyTransfer transferWitnessWorld
      ({ id := 1, balance_mon := 3, pos := "spawn", status := "active",
         auto := false, cooldown_until_tick := 0, goal := "earn" } : Agent) 1
      (.jobj [("to_agent_id", .jint 2), ("amount", .jint 5)]) =
      some (logEvent transferWitnessWorld "transfer_denied_insufficient_funds", false) :=
  (transfer_apply_atomic transferWitnessWorld 1 0 _
      [("to_agent_id", .jint 2), ("amount", .jint 5)] rfl).2.2.2.2.2.2.2.1
    2 5 _ rfl (by decide) rfl (by decide) (by decide) rfl (by decide)

/-- C7 (amended): the reactive branch runs before the cooldown gate and
fires exactly when `lastDeniedReason = "capacity"` with a set
`lastDeniedTick` and `tick ≤ lastDeniedTick + 1`: with insufficient funds
it logs a no-op decision and clears the flags; with sufficient funds it
enqueues one move to the cyclic next location — except that when that
location equals the current position nothing is enqueued — clears the
flags, and raises `cooldownUntilTick` to at least `tick + 1`; a stale
denial only clears the flags and falls through to the normal goal logic,
and without a capacity denial the normal logic runs directly. -/
theorem auto_reactive_branch_spec (ws : WorldState) (agent : Agent) (lt : JVal)
    (hreason : agent.last_denied_reason = some (.jstr "capacity"))
    (hltick : agent.last_denied_tick = some lt) (hnn : lt ≠ .jnull) :
    (clampNonNeg ws.tick 0 ≤ jToNonNeg lt 0 + 1 →
      clampNonNeg agent.balance_mon 0 < MOVE_COST_MON →
      _auto_policy_for_agent ws agent =
        (logEvent ws "auto_decision",
         { agent with
            last_denied_reason := none
            last_denied_tick := none
            cooldown_until_tick :=
              max (clampNonNeg agent.cooldown_until_tick 0) (clampNonNeg ws.tick 0 + 1) },
         none)) ∧
    (clampNonNeg ws.tick 0 ≤ jToNonNeg lt 0 + 1 →
      MOVE_COST_MON ≤ clampNonNeg agent.balance_mon 0 →
      _pick_next_location ws agent.pos ≠ agent.pos →
      _auto_policy_for_agent ws agent =
        (logEvent (_queue_action ws agent.id "move"
            [("to", .jstr (_pick_next_location ws agent.pos))]).1 "auto_decision",
         { agent with
            last_denied_reason := none
            last_denied_tick := none
            cooldown_until_tick :=
              max (clampNonNeg agent.cooldown_until_tick 0) (clampNonNeg ws.tick 0 + 1) },
         some (mkAction ws.tick agent.id "move"
           [("to", .jstr (_pick_next_location ws agent.pos))]))) ∧
    (clampNonNeg ws.tick 0 ≤ jToNonNeg lt 0 + 1 →
      MOVE_COST_MON ≤ clampNonNeg agent.balance_mon 0 →
      _pick_next_location ws agent.pos = agent.pos →
      _auto_policy_for_agent ws agent =
        (logEvent ws "auto_decision",
         { agent with
            last_denied_reason := none
            last_denied_tick := none
            cooldown_until_tick :=
              max (clampNonNeg agent.cooldown_until_tick 0) (clampNonNeg ws.tick 0 + 1) },
         none)) ∧
    (jToNonNeg lt 0 + 1 < clampNonNeg ws.tick 0 →
      _auto_policy_for_agent ws agent =
        _auto_policy_for_agent ws
          { agent with last_denied_reason := none, last_denied_tick := none }) ∧
    (∀ other : Agent, isCapacityReason other.last_denied_reason = false →
      _auto_policy_for_agent ws other =
        policyCore ws other (clampNonNeg ws.tick 0) other.pos other.goal
          (clampNonNeg other.balance_mon 0)) := by
  have hcond : (isCapacityReason agent.last_denied_reason &&
      isNotNone agent.last_denied_tick) = true := by
    rw [hreason, hltick]
    cases lt with
    | jnull => exact absurd rfl hnn
    | jbool b => rfl
    | jint n => rfl
    | jstr s => rfl
    | jarr xs => rfl
    | jobj fs => rfl
  refine ⟨?_, ?_, ?_, ?_, ?_⟩
  · intro hrecent hbal
    unfold _auto_policy_for_agent
    rw [if_pos hcond, hltick]
    dsimp only [Option.getD]
    rw [if_pos hrecent, if_pos hbal]
  · intro hrecent hbal hne
    unfold _auto_policy_for_agent
    rw [if_pos hcond, hltick]
    dsimp only [Option.getD]
    rw [if_pos hrecent, if_neg (by omega), if_pos hne]
    rfl
  · intro hrecent hbal heq
    unfold _auto_policy_for_agent
    rw [if_pos hcond, hltick]
    dsimp only [Option.getD]
    rw [if_pos hrecent, if_neg (by omega), if_neg (by simp [heq])]
  · intro hstale
    unfold _auto_policy_for_agent
    rw [if_pos hcond, hltick]
    dsimp only [Option.getD]
    rw [if_neg (by omega)]
    rw [show (isCapacityReason (none : Option JVal) &&
        isNotNone (none : Option JVal)) = false from rfl]
    rfl
  · intro other hfalse
    unfold _auto_policy_for_agent
    rw [hfalse]
    rfl

/-- A reachable world (loadable snapshot) with a single location and a
funded agent carrying a fresh capacity denial. -/
def singleLocationWorld : WorldState :=
  { make_initial_world_state with
    locations := ["spawn"],
    agents :=
      [{ id := 1, balance_mon := 5, pos := "spawn", status := "active",
         auto := true, cooldown_until_tick := 0, goal := "earn",
         last_denied_reason := some (.jstr "capacity"),
         last_denied_tick := some (.jint 0) }] }

/-- C7 counterexample: in a reachable single-location world the reactive
branch fires (the flags are consumed) with sufficient funds, yet no move
is enqueued, because the cyclic next location equals the current
position — contradicting the claim that the branch then enqueues one
move. -/
theorem auto_reactive_no_enqueue_counterexample :
    (auto_step_internal 50 singleLocationWorld).1.action_queue = [] ∧
    (auto_step_internal 50 singleLocationWorld).2 = [] ∧
    (auto_step_internal 50 singleLocationWorld).1.agents.map
      (fun a => a.last_denied_reason) = [none] ∧
    MOVE_COST_MON ≤ clampNonNeg (5 : Int) 0 :=
  ⟨rfl, rfl, rfl, by decide⟩

/-- Witness for C7 on the default three locations: the reaction enqueues a
move from spawn to market. -/
def reactiveWitnessAgent : Agent :=
  { id := 1, balance_mon := 5, pos := "spawn", status := "active",
    auto := true, cooldown_until_tick := 3, goal := "earn",
    last_denied_reason := some (.jstr "capacity"),
    last_denied_tick := some (.jint 0) }

theorem auto_reactive_branch_spec_witness :
    (_auto_policy_for_agent make_initial_world_state reactiveWitnessAgent).2.2 =
      some (mkAction 0 1 "move" [("to", .jstr "market")]) := by
  have h := (auto_reactive_branch_spec make_initial_world_state reactiveWitnessAgent
      (.jint 0) rfl rfl (by intro hc; cases hc)).2.1
    (by decide) (by decide) (by decide)
  rw [h]
  rfl

theorem act_move_normal {ws : WorldState} {aid : Int} {ag : Agent}
    (hfind : find_agent ws.agents aid = some ag) (pl : List (String × JVal)) :
    act ws aid .move pl =
      (match pget pl "to" with
       | some (.jstr d) =>
         if d ∈ ws.locations then .ok (_queue_action ws aid "move" pl)
         else .error (.invalidPayload
           "move requires payload.to (string, one of: spawn, market, workshop)")
       | _ => .error (.invalidPayload
           "move requires payload.to (string, one of: spawn, market, workshop)")) := by
  unfold act
  rw [hfind]
  rfl

theorem act_earn_normal {ws : WorldState} {aid : Int} {ag : Agent}
    (hfind : find_agent ws.agents aid = some ag) (pl : List (String × JVal)) :
    act ws aid .earn pl =
      (match jAsInt? ((pget pl "amount").getD (.jint 1)) with
       | some amount =>
         if amount ≤ 0 then .error (.invalidPayload "earn.amount must be positive int")
         else .ok (_queue_action ws aid "earn" pl)
       | none => .error (.invalidPayload "earn.amount must be positive int")) := by
  unfold act
  rw [hfind]
  rfl

theorem act_say_normal {ws : WorldState} {aid : Int} {ag : Agent}
    (hfind : find_agent ws.agents aid = some ag) (pl : List (String × JVal)) :
    act ws aid .say pl =
      (match (pget pl "text").getD (.jstr "") with
       | .jstr text =>
         if text.trim = "" then .error (.invalidPayload "say.text must be non-empty string")
         else .ok (_queue_action ws aid "say" pl)
       | _ => .error (.invalidPayload "say.text must be non-empty string")) := by
  unfold act
  rw [hfind]
  rfl

theorem act_transfer_normal {ws : WorldState} {aid : Int} {ag : Agent}
    (hfind : find_agent ws.agents aid = some ag) (pl : List (String × JVal)) :
    act ws aid .transfer pl =
      (match jAsInt? ((pget pl "to_agent_id").getD .jnull) with
       | none => .error (.invalidPayload "transfer.to_agent_id must be positive int")
       | some toAgentId =>
         if toAgentId ≤ 0 then
           .error (.invalidPayload "transfer.to_agent_id must be positive int")
         else
           match jAsInt? ((pget pl "amount").getD .jnull) with
           | none => .error (.invalidPayload "transfer.amount must be positive int")
           | some amount =>
             if amount ≤ 0 then
               .error (.invalidPayload "transfer.amount must be positive int")
             else if toAgentId = aid then
               .error (.invalidPayload "transfer.to_agent_id must be different from agent_id")
             else
               match find_agent ws.agents toAgentId with
               | none => .error .agentNotFound
               | some _ => .ok (_queue_action ws aid "transfer" pl)) := by
  unfold act
  rw [hfind]
  rfl

/-- C6 (amended): `act` fails with `AgentNotFound` when the agent id does
not resolve; per-type structural validation admits exactly the claimed
payloads (move: `to` a known location string; earn: positive integer
`amount` defaulting to 1 when absent; say: non-empty string `text`;
transfer: positive integer `toAgentId` of an existing agent different from
the sender and positive integer `amount`), failing with `InvalidPayload`
otherwise — except that a transfer whose receiver does not exist fails
with `AgentNotFound`; on success exactly one action tagged with the
current tick is appended and `queued_action` is logged, leaving all other
state unchanged. -/
theorem act_validation_spec (ws : WorldState) (aid : Int) :
    (find_agent ws.agents aid = none →
      ∀ ty pl, act ws aid ty pl = .error .agentNotFound) ∧
    (∀ ty pl out, act ws aid ty pl = .ok out →
      out.2 = mkAction ws.tick aid ty.toStr pl ∧
      out.1 = logEvent
        { ws with action_queue := ws.action_queue ++ [mkAction ws.tick aid ty.toStr pl] }
        "queued_action") ∧
    (∀ ag, find_agent ws.agents aid = some ag →
      (∀ pl, (∃ out, act ws aid .move pl = .ok out) ↔
        (∃ d, pget pl "to" = some (.jstr d) ∧ d ∈ ws.locations)) ∧
      (∀ pl, (∃ out, act ws aid .earn pl = .ok out) ↔
        (∃ n, jAsInt? ((pget pl "amount").getD (.jint 1)) = some n ∧ 0 < n)) ∧
      (∀ pl, pget pl "amount" = none → ∃ out, act ws aid .earn pl = .ok out) ∧
      (∀ pl, (∃ out, act ws aid .say pl = .ok out) ↔
        (∃ s, (pget pl "text").getD (.jstr "") = .jstr s ∧ s.trim ≠ "")) ∧
      (∀ pl, (∃ out, act ws aid .transfer pl = .ok out) ↔
        (∃ t n recv, jAsInt? ((pget pl "to_agent_id").getD .jnull) = some t ∧ 0 < t ∧
          jAsInt? ((pget pl "amount").getD .jnull) = some n ∧ 0 < n ∧ t ≠ aid ∧
          find_agent ws.agents t = some recv)) ∧
      (∀ pl t n, jAsInt? ((pget pl "to_agent_id").getD .jnull) = some t → 0 < t →
        jAsInt? ((pget pl "amount").getD .jnull) = some n → 0 < n → t ≠ aid →
        find_agent ws.agents t = none →
        act ws aid .transfer pl = .error .agentNotFound)) := by
  refine ⟨?_, ?_, ?_⟩
  · intro hnone ty pl
    unfold act
    rw [hnone]
  · intro ty pl out h
    rw [act_ok_eq h]
    exact ⟨rfl, rfl⟩
  · intro ag hfind
    refine ⟨?_, ?_, ?_, ?_, ?_, ?_⟩
    · intro pl
      rw [act_move_normal hfind]
      constructor
      · rintro ⟨out, hout⟩
        cases hpl : pget pl "to" with
        | none => rw [hpl] at hout; exact Except.noConfusion hout
        | some v =>
          cases v with
          | jstr d =>
            rw [hpl] at hout
            dsimp only at hout
            by_cases hmem : d ∈ ws.locations
            · exact ⟨d, rfl, hmem⟩
            · rw [if_neg hmem] at hout
              exact Except.noConfusion hout
          | jnull => rw [hpl] at hout; exact Except.noConfusion hout
          | jbool b => rw [hpl] at hout; exact Except.noConfusion hout
          | jint n => rw [hpl] at hout; exact Except.noConfusion hout
          | jarr xs => rw [hpl] at hout; exact Except.noConfusion hout
          | jobj fs => rw [hpl] at hout; exact Except.noConfusion hout
      · rintro ⟨d, hd, hmem⟩
        rw [hd]
        dsimp only
        rw [if_pos hmem]
        exact ⟨_, rfl⟩
    · intro pl
      rw [act_earn_normal hfind]
      constructor
      · rintro ⟨out, hout⟩
        cases hn : jAsInt? ((pget pl "amount").getD (.jint 1)) with
        | none => rw [hn] at hout; exact Except.noConfusion hout
        | some n =>
          rw [hn] at hout
          dsimp only at hout
          by_cases hpos : n ≤ 0
          · rw [if_pos hpos] at hout
            exact Except.noConfusion hout
          · exact ⟨n, rfl, by omega⟩
      · rintro ⟨n, hn, hpos⟩
        rw [hn]
        dsimp only
        rw [if_neg (by omega)]
        exact ⟨_, rfl⟩
    · intro pl hnone
      rw [act_earn_normal hfind, hnone]
      exact ⟨_, rfl⟩
    · intro pl
      rw [act_say_normal hfind]
      constructor
      · rintro ⟨out, hout⟩
        cases hv : (pget pl "text").getD (.jstr "") with
        | jstr s =>
          rw [hv] at hout
          dsimp only at hout
          by_cases hs : s.trim = ""
          · rw [if_pos hs] at hout
            exact Except.noConfusion hout
          · exact ⟨s, rfl, hs⟩
        | jnull => rw [hv] at hout; exact Except.noConfusion hout
        | jbool b => rw [hv] at hout; exact Except.noConfusion hout
        | jint n => rw [hv] at hout; exact Except.noConfusion hout
        | jarr xs => rw [hv] at hout; exact Except.noConfusion hout
        | jobj fs => rw [hv] at hout; exact Except.noConfusion hout
      · rintro ⟨s, hs, hne⟩
        rw [hs]
        dsimp only
        rw [if_neg hne]
        exact ⟨_, rfl⟩
    · intro pl
      rw [act_transfer_normal hfind]
      constructor
      · rintro ⟨out, hout⟩
        cases ht : jAsInt? ((pget pl "to_agent_id").getD .jnull) with
        | none => rw [ht] at hout; exact Except.noConfusion hout
        | some t =>
          rw [ht] at hout
          dsimp only at hout
          by_cases htpos : t ≤ 0
          · rw [if_pos htpos] at hout
            exact Except.noConfusion hout
          · rw [if_neg htpos] at hout
            cases hn : jAsInt? ((pget pl "amount").getD .jnull) with
            | none => rw [hn] at hout; exact Except.noConfusion hout
            | some n =>
              rw [hn] at hout
              dsimp only at hout
              by_cases hnpos : n ≤ 0
              · rw [if_pos hnpos] at hout
                exact Except.noConfusion hout
              · rw [if_neg hnpos] at hout
                by_cases hsame : t = aid
                · rw [if_pos hsame] at hout
                  exact Except.noConfusion hout
                · rw [if_neg hsame] at hout
                  cases hr : find_agent ws.agents t with
                  | none => rw [hr] at hout; exact Except.noConfusion hout
                  | some recv =>
                    exact ⟨t, n, recv, rfl, by omega, rfl, by omega, hsame, hr⟩
      · rintro ⟨t, n, recv, ht, htpos, hn, hnpos, hsame, hr⟩
        rw [ht]
        dsimp only
        rw [if_neg (by omega), hn]
        dsimp only
        rw [if_neg (by omega), if_neg hsame, hr]
        exact ⟨_, rfl⟩
    · intro pl t n ht htpos hn hnpos hsame hr
      rw [act_transfer_normal hfind, ht]
      dsimp only
      rw [if_neg (by omega), hn]
      dsimp only
      rw [if_neg (by omega), if_neg hsame, hr]

/-- A world with a single agent (id 1) and no agent 2. -/
def unknownReceiverWorld : WorldState :=
  { make_initial_world_state with
    agents :=
      [{ id := 1, balance_mon := 3, pos := "spawn", status := "active",
         auto := false, cooldown_until_tick := 0, goal := "earn" }] }

/-- C6 counterexample: enqueueing a transfer with a positive integer
amount and a positive integer `toAgentId` that names no existing agent
fails with `AgentNotFound` (HTTP 404, the same error as an unknown
sender), not with `InvalidPayload` as the claim states. -/
theorem act_transfer_unknown_receiver_counterexample :
    act unknownReceiverWorld 1 .transfer
        [("to_agent_id", .jint 2), ("amount", .jint 1)] =
      .error .agentNotFound :=
  rfl

/-- Witness for C6: with agent 1 present, a valid move enqueue succeeds
and a transfer to the missing agent 2 yields `AgentNotFound`. -/
theorem act_validation_spec_witness :
    (∃ out, act unknownReceiverWorld 1 .move [("to", .jstr "market")] = .ok out) ∧
    act unknownReceiverWorld 1 .transfer
        [("to_agent_id", .jint 2), ("amount", .jint 3)] = .error .agentNotFound :=
  ⟨((act_validation_spec unknownReceiverWorld 1).2.2 _ rfl).1
      [("to", .jstr "market")] |>.mpr ⟨"market", rfl, by decide⟩,
   ((act_validation_spec unknownReceiverWorld 1).2.2 _ rfl).2.2.2.2.2
      [("to_agent_id", .jint 2), ("amount", .jint 3)] 2 3 rfl (by decide) rfl
      (by decide) (by decide) rfl⟩

/-- Invariants of agents in every reachable state (established by `join`,
the scenarios, and load-time normalization). -/
def AgentWF (a : Agent) : Prop :=
  1 ≤ a.id ∧ 0 ≤ a.balance_mon ∧ 0 ≤ a.cooldown_until_tick ∧
  a.goal ∈ (["earn", "wander", "idle"] : List String)

instance (a : Agent) : Decidable (AgentWF a) := by
  unfold AgentWF
  infer_instance

/-- Invariants of every reachable world state used by the snapshot round
trip. -/
def WorldWF (ws : WorldState) : Prop :=
  0 ≤ ws.tick ∧ 1 ≤ ws.economy.workshop_capacity_per_tick ∧
  0 ≤ ws.economy.workshop_capacity_left ∧ ∀ a ∈ ws.agents, AgentWF a

instance (ws : WorldState) : Decidable (WorldWF ws) := by
  unfold WorldWF
  infer_instance

theorem normalize_encode_agent {a : Agent} (h : AgentWF a) :
    normalizeAgentEntry (encodeAgent a) = some a := by
  obtain ⟨h1, h2, h3, h4⟩ := h
  unfold encodeAgent normalizeAgentEntry
  simp only [Option.getD, pyToInt, jToNonNeg, pyTruthy]
  rw [if_neg (by omega : ¬ a.id ≤ 0), if_pos h2, if_pos h3, if_pos h4]

theorem filterMap_encode_agents (l : List Agent) (h : ∀ a ∈ l, AgentWF a) :
    (l.map encodeAgent).filterMap normalizeAgentEntry = l := by
  induction l with
  | nil => rfl
  | cons a rest ih =>
    rw [List.map_cons, List.filterMap_cons,
      normalize_encode_agent (h a (by simp)),
      ih (fun x hx => h x (by simp [hx]))]

/-- The `data.get("schema_version") != 1` acceptance check of
`load_world_state`. -/
def schemaOK (sv : Option JVal) : Bool :=
  match sv with
  | some v => jEqInt v 1
  | none => false

theorem load_world_state_obj (sv : Option JVal) (wf : RawField RawWorld) :
    load_world_state (.obj sv wf) =
      (if schemaOK sv = true then
        (match wf with
         | .val w => Except.ok (logEvent (_normalize_loaded_state w) "persist_load")
         | _ => Except.error "Snapshot world_state is invalid")
       else Except.error "Unsupported snapshot schema_version") := rfl

theorem normalize_encode_world (ws : WorldState) (hwf : WorldWF ws) (il : Bool) :
    _normalize_loaded_state
      { tick := some (.jint ws.tick)
        locations := .val ws.locations
        agents := .val (ws.agents.map encodeAgent)
        action_queue := .val ws.action_queue
        logs := .val (if il then ws.logs else [])
        economy := .val
          { workshop_capacity_per_tick := some (.jint ws.economy.workshop_capacity_per_tick)
            workshop_capacity_left := some (.jint ws.economy.workshop_capacity_left) } } =
    { tick := ws.tick
      locations := ws.locations
      agents := ws.agents
      action_queue := ws.action_queue
      logs := if il then ws.logs else []
      economy := ws.economy } := by
  obtain ⟨ht, hper, hleft, hag⟩ := hwf
  unfold _normalize_loaded_state
  dsimp only
  simp only [jToNonNeg, pyToInt, Option.getD]
  rw [if_pos ht, if_pos (by omega : (0:Int) ≤ ws.economy.workshop_capacity_per_tick),
    if_neg (by omega : ¬ ws.economy.workshop_capacity_per_tick ≤ 0), if_pos hleft,
    filterMap_encode_agents ws.agents hag]

/-- C8: loading the document produced by `saveSnapshot` reproduces the
world state (same tick, locations, agents with all their fields, queued
actions and economy), and load rejects with an explicit error exactly the
unsupported schema versions and structurally invalid documents, accepting
every schema-version-1 document whose `world_state` is an object. -/
theorem snapshot_roundtrip_spec :
    (∀ ws, WorldWF ws →
      ∃ ws', load_world_state (save_world_state ws true) = .ok ws' ∧
        ws'.tick = ws.tick ∧ ws'.locations = ws.locations ∧
        ws'.agents = ws.agents ∧ ws'.action_queue = ws.action_queue ∧
        ws'.economy = ws.economy) ∧
    (load_world_state .notObject = .error "Snapshot root JSON must be an object") ∧
    (∀ sv wf, schemaOK sv = false →
      load_world_state (.obj sv wf) = .error "Unsupported snapshot schema_version") ∧
    (∀ sv, schemaOK sv = true →
      load_world_state (.obj sv .missing) = .error "Snapshot world_state is invalid" ∧
      load_world_state (.obj sv .invalid) = .error "Snapshot world_state is invalid") ∧
    (∀ sv w, schemaOK sv = true →
      ∃ ws', load_world_state (.obj sv (.val w)) = .ok ws') := by
  refine ⟨?_, rfl, ?_, ?_, ?_⟩
  · intro ws hwf
    refine ⟨_, rfl, ?_, ?_, ?_, ?_, ?_⟩ <;>
      rw [normalize_encode_world ws hwf true] <;> rfl
  · intro sv wf hfalse
    rw [load_world_state_obj, hfalse]
    rfl
  · intro sv htrue
    constructor
    · rw [load_world_state_obj, htrue]
      rfl
    · rw [load_world_state_obj, htrue]
      rfl
  · intro sv w htrue
    refine ⟨logEvent (_normalize_loaded_state w) "persist_load", ?_⟩
    rw [load_world_state_obj, htrue]
    rfl

/-- Witness for C8 at a concrete two-agent world. -/
theorem snapshot_roundtrip_spec_witness :
    ∃ ws', load_world_state (save_world_state transferWitnessWorld true) = .ok ws' ∧
      ws'.tick = transferWitnessWorld.tick ∧
      ws'.locations = transferWitnessWorld.locations ∧
      ws'.agents = transferWitnessWorld.agents ∧
      ws'.action_queue = transferWitnessWorld.action_queue ∧
      ws'.economy = transferWitnessWorld.economy :=
  snapshot_roundtrip_spec.1 transferWitnessWorld (by decide)

/-- C9: the cyclic next-location rule: identity on an empty sequence, the
unique member on a singleton, successor at `(index + 1) % length` for a
member, the first element for a non-member, and the default three
locations cycle `spawn → market → workshop → spawn`. -/
theorem pick_next_location_spec :
    (∀ ws c, ws.locations = [] → _pick_next_location ws c = c) ∧
    (∀ ws c x, ws.locations = [x] → _pick_next_location ws c = x) ∧
    (∀ ws c, c ∈ ws.locations →
      _pick_next_location ws c =
        ws.locations.getD ((ws.locations.indexOf c + 1) % ws.locations.length) c) ∧
    (∀ ws c, c ∉ ws.locations → ws.locations ≠ [] →
      _pick_next_location ws c = ws.locations.headD c) ∧
    (_pick_next_location make_initial_world_state "spawn" = "market" ∧
     _pick_next_location make_initial_world_state "market" = "workshop" ∧
     _pick_next_location make_initial_world_state "workshop" = "spawn") := by
  refine ⟨?_, ?_, ?_, ?_, rfl, rfl, rfl⟩
  · intro ws c h
    unfold _pick_next_location
    simp [h]
  · intro ws c x h
    unfold _pick_next_location
    rw [h]
    by_cases hc : c ∈ [x]
    · simp at hc
      simp [hc]
    · simp at hc
      simp [hc]
  · intro ws c h
    unfold _pick_next_location
    have hne : ¬ ws.locations.isEmpty := by
      cases hl : ws.locations with
      | nil => rw [hl] at h; simp at h
      | cons a l => simp [hl]
    rw [if_neg (by simpa using hne), if_neg (by simp [h])]
    by_cases h1 : ws.locations.length = 1
    · obtain ⟨x, hx⟩ := List.length_eq_one.mp h1
      rw [if_pos h1, hx]
      have : c = x := by rw [hx] at h; simpa using h
      subst this
      simp [List.indexOf_cons_self]
    · rw [if_neg h1]
  · intro ws c h hne
    unfold _pick_next_location
    rw [if_neg (by simpa using hne), if_pos (by simpa using h)]

/-- Witness for C9's conditional parts at the default locations. -/
theorem pick_next_location_spec_witness :
    _pick_next_location make_initial_world_state "market" =
      (make_initial_world_state).locations.getD
        (((make_initial_world_state).locations.indexOf "market" + 1) %
          (make_initial_world_state).locations.length) "market" :=
  pick_next_location_spec.2.2.1 make_initial_world_state "market" (by decide)

end AxiomWorld
